import Mathlib

/-!
Formal model of the dbhydro-py client library.

Shallow embedding of the parts of the source exercised by the claims:
JSON documents, the transport Result record, DbHydroException and its
textual rendering, the facade's error extraction and request handling,
date normalization, the point / synchronize / aggregate response models
with their filter operations, and the generic dataclass mapper.

Python dictionaries are modelled as ordered association lists (insertion
order preserved, unique keys), matching CPython dict semantics.  Machine
floats never take part in arithmetic in the modelled code paths (they are
only copied through), so JSON numbers with a fractional part are carried
as an exact decimal constructor.
-/

/-- A decoded JSON value.  The dec constructor carries a decimal literal
m times 10 to the minus s; such values are only ever copied through by the
modelled code, never computed with, so exact decimals are a faithful
stand-in for floats. -/
inductive Json where
  | null : Json
  | bool (b : Bool) : Json
  | int (n : Int) : Json
  | dec (m : Int) (s : Nat) : Json
  | str (s : String) : Json
  | arr (items : List Json) : Json
  | obj (kvs : List (String × Json)) : Json

/-- Lookup in an ordered association list (a Python dict): first match. -/
def alookup {α : Type} : List (String × α) → String → Option α
  | [], _ => none
  | (k, v) :: rest, s => if k = s then some v else alookup rest s

/-- Python dict assignment d[k] = v: overwrite in place keeping the key's
original position, or append at the end when the key is new. -/
def dictInsert {α : Type} : List (String × α) → String → α → List (String × α)
  | [], k, v => [(k, v)]
  | (k', v') :: rest, k, v =>
      if k' = k then (k, v) :: rest else (k', v') :: dictInsert rest k v

/-- value of key k when the JSON value is an object, none otherwise. -/
def Json.objLookup : Json → String → Option Json
  | .obj kvs, k => alookup kvs k
  | _, _ => none

/-- Python d.get(k) on a decoded JSON object: a missing key and a key that
is present with an explicit null both come back as Python None. -/
def pyGet (j : Json) (k : String) : Option Json :=
  match j.objLookup k with
  | some .null => none
  | some v => some v
  | none => none

/-- Python truthiness of a decoded JSON value. -/
def pyTruthy : Json → Bool
  | .null => false
  | .bool b => b
  | .int n => n != 0
  | .dec m _ => m != 0
  | .str s => s != ""
  | .arr items => !items.isEmpty
  | .obj kvs => !kvs.isEmpty

/-- Is the value a JSON object (a Python dict)? -/
def Json.isObj : Json → Bool
  | .obj _ => true
  | _ => false

/-- Is the value the JSON null? -/
def Json.isNull : Json → Bool
  | .null => true
  | _ => false

/-- A value usable on the left of an int comparison in Python (bool is an
int there); anything else raises TypeError at the comparison. -/
def jsonAsInt : Json → Option Int
  | .int n => some n
  | .bool b => some (if b then 1 else 0)
  | _ => none

/-- Python str() of a decoded JSON value, for f-string interpolation.
Only the null / int / str cases are ever exercised by the claims. -/
def pyStr : Json → String
  | .null => "None"
  | .bool true => "True"
  | .bool false => "False"
  | .int n => toString n
  | .dec m s => toString m ++ "e-" ++ toString s
  | .str s => s
  | .arr _ => "<list>"
  | .obj _ => "<dict>"

/-- needle is a contiguous substring of haystack (lists of characters). -/
def isPrefixList : List Char → List Char → Bool
  | [], _ => true
  | _ :: _, [] => false
  | a :: as, b :: bs => a == b && isPrefixList as bs

def listContainsSub : List Char → List Char → Bool
  | [], needle => needle.isEmpty
  | h :: t, needle => isPrefixList needle (h :: t) || listContainsSub t needle

/-- Python: "error" in s.lower() (ASCII case folding suffices here). -/
def strContainsError (s : String) : Bool :=
  listContainsSub (s.data.map Char.toLower) ['e', 'r', 'r', 'o', 'r']

/-! ## Transport result and unified exception (exceptions.py, result.py) -/

/-- Result: the uniform envelope every transport call returns. -/
structure Result where
  status_code : Int
  message : String
  data : Json

/-- DbHydroException: the single remote-failure exception type.  The
fields follow the annotated types of exceptions.py. -/
structure DbHydroException where
  message : String
  http_status_code : Option Int := none
  api_status_code : Option Int := none
  api_status_message : Option String := none
  elapsed_time : Option Json := none

/-- Python " | ".join(parts). -/
def pyJoin (sep : String) : List String → String
  | [] => ""
  | [x] => x
  | x :: xs => x ++ sep ++ pyJoin sep xs

/-- DbHydroException.__str__: message, then API error message if truthy,
then HTTP status if truthy, then API status if truthy and different from
the HTTP status, joined with a vertical-bar separator. -/
def DbHydroException.render (e : DbHydroException) : String :=
  let parts := [e.message]
  let parts := parts ++
    (match e.api_status_message with
     | some m => if m ≠ "" then ["API Error: " ++ m] else []
     | none => [])
  let parts := parts ++
    (match e.http_status_code with
     | some c => if c ≠ 0 then ["HTTP Status: " ++ toString c] else []
     | none => [])
  let parts := parts ++
    (match e.api_status_code with
     | some a =>
        if a != 0 && (match e.http_status_code with
                      | some h => a != h
                      | none => true) then
          ["API Status: " ++ toString a]
        else []
     | none => [])
  pyJoin " | " parts

/-! ## Service-level error extraction (api.py, _extract_api_error) -/

/-- The dict returned by _extract_api_error: the raw status message, raw
status code and raw elapsed time of the offending status object. -/
structure ApiError where
  message : Json
  status_code : Option Json
  elapsed_time : Option Json

/-- Inspect one status object the way _extract_api_error does.  A Python
runtime error (TypeError comparing a non-number code, AttributeError
lowering a non-string message) is the Except.error case; the source
catches it around the whole scan and gives up. -/
def statusCheck (st : Json) : Except Unit (Option ApiError) :=
  let code : Option Json :=
    match st.objLookup "statusCode" with
    | some .null => none
    | some v => some v
    | none => none
  let msg : Json :=
    match st.objLookup "statusMessage" with
    | some v => v
    | none => .str ""
  let elapsed : Option Json := pyGet st "elapsedTime"
  let msgCheck : Except Unit (Option ApiError) :=
    match msg with
    | .str m =>
        if strContainsError m then .ok (some ⟨msg, code, elapsed⟩)
        else .ok none
    | _ => .error ()
  match code with
  | some cv =>
      if pyTruthy cv then
        match jsonAsInt cv with
        | some n =>
            if n < 200 ∨ 300 ≤ n then .ok (some ⟨msg, code, elapsed⟩)
            else msgCheck
        | none => .error ()
      else msgCheck
  | none => msgCheck

/-- Scan the top-level entries of the decoded body in order for a nested
object carrying a status object; a runtime error anywhere aborts the
whole scan with no result, as the source's try/except does. -/
def extractApiErrorGo : List (String × Json) → Option ApiError
  | [] => none
  | (_, v) :: rest =>
      match v with
      | .obj vkvs =>
          match alookup vkvs "status" with
          | some st =>
              if st.isObj then
                match statusCheck st with
                | .error _ => none
                | .ok (some e) => some e
                | .ok none => extractApiErrorGo rest
              else extractApiErrorGo rest
          | none => extractApiErrorGo rest
      | _ => extractApiErrorGo rest

def DbHydroApi.extract_api_error (data : Json) : Option ApiError :=
  match data with
  | .obj kvs => extractApiErrorGo kvs
  | _ => none

/-- api_status_message stored on the exception: the raw message value
(a string in every well-formed response). -/
def toStatusMessage : Json → Option String
  | .null => none
  | .str s => some s
  | v => some (pyStr v)

/-- _check_api_response: raise an enriched exception for a Service-level
error, else a bare HTTP exception for a non-2xx status, else succeed. -/
def DbHydroApi.check_api_response (data : Json) (http : Int) :
    Except DbHydroException Unit :=
  match DbHydroApi.extract_api_error data with
  | some e =>
      .error ⟨"API request failed: " ++ pyStr e.message,
              some http,
              e.status_code.bind jsonAsInt,
              toStatusMessage e.message,
              e.elapsed_time⟩
  | none =>
      if http < 200 ∨ 300 ≤ http then
        .error ⟨"HTTP request failed with status " ++ toString http,
                some http, none, none, none⟩
      else .ok ()

/-- _perform_request, from the point where the transport has returned its
Result: sentinel status code 0 raises at once with the transport message;
otherwise the body is checked for Service / HTTP errors and returned. -/
def DbHydroApi.perform_request (r : Result) : Except DbHydroException Json :=
  if r.status_code = 0 then
    .error ⟨r.message, none, none, none, none⟩
  else
    match DbHydroApi.check_api_response r.data r.status_code with
    | .error e => .error e
    | .ok _ => .ok r.data

/-! ## Date normalization (api.py, _parse_date / _handle_date_parameters)

String primitives are modelled on the underlying character list so that
everything reduces in the kernel.  Python str.strip / "x" in s /
s.split(sep, 1) / slicing are each given a direct list translation. -/

/-- A datetime.datetime value (the fields _parse_date formats). -/
structure PyDateTime where
  year : Nat
  month : Nat
  day : Nat
  hour : Nat
  minute : Nat
  second : Nat
  microsecond : Nat
deriving DecidableEq

/-- The input accepted by _parse_date: a datetime or a string. -/
inductive DateInput where
  | dt (d : PyDateTime)
  | str (s : String)

def ofChars (l : List Char) : String := String.mk l

/-- Python str.strip(): drop leading and trailing whitespace. -/
def pyStrip (s : String) : String :=
  ofChars (((s.data.dropWhile Char.isWhitespace).reverse.dropWhile
    Char.isWhitespace).reverse)

/-- Python s.split(c, 1) followed by concatenation of the two parts:
remove the first occurrence of the character only. -/
def removeFirstCharList : List Char → Char → List Char
  | [], _ => []
  | x :: xs, c => if x = c then xs else x :: removeFirstCharList xs c

def removeFirstChar (s : String) (c : Char) : String :=
  ofChars (removeFirstCharList s.data c)

/-- Separator handling of _parse_date: strip, then remove a T separator,
or failing that an internal space when the current length exceeds 10. -/
def removeSeparators (s0 : String) : String :=
  let s := pyStrip s0
  if s.data.contains 'T' then removeFirstChar s 'T'
  else if s.data.contains ' ' && decide (s.data.length > 10) then
    removeFirstChar s ' '
  else s

/-- zero-padded decimal rendering of n with exactly w digits (the strftime
field widths; faithful for n below 10 ^ w). -/
def digitChar (n : Nat) : Char := Char.ofNat (48 + n)

def natDigits : Nat → Nat → List Char
  | 0, _ => []
  | w + 1, n => natDigits w (n / 10) ++ [digitChar (n % 10)]

/-- strftime of the format string used by _parse_date before the final
slice: 4-digit year, dash, 2-digit month, dash, 2-digit day, 2-digit
hour, colon, minute, colon, second, colon, 6-digit microseconds. -/
def strftimeChars (d : PyDateTime) : List Char :=
  natDigits 4 d.year ++ ['-'] ++ natDigits 2 d.month ++ ['-'] ++
  natDigits 2 d.day ++ natDigits 2 d.hour ++ [':'] ++
  natDigits 2 d.minute ++ [':'] ++ natDigits 2 d.second ++ [':'] ++
  natDigits 6 d.microsecond

/-- _parse_date on a string input, after the datetime branch. -/
def DbHydroApi.parse_date_str (s0 : String) : Except String String :=
  let s := removeSeparators s0
  if s.data.length > 10 then
    let c := (s.data.drop 10).count ':'
    if c = 3 then .ok s
    else if c = 2 then .ok (s ++ ":000")
    else if c = 1 then .ok (s ++ ":00:000")
    else .ok (s ++ ":00:00:000")
  else if s.data.length = 10 ∧ s.data.count '-' = 2 then
    .ok (s ++ "00:00:00:000")
  else
    .error ("Invalid date format: " ++ s)

/-- _parse_date: a datetime is formatted and the last three characters
(the sub-millisecond digits) sliced off; a string goes through separator
removal and colon-count completion. -/
def DbHydroApi.parse_date : DateInput → Except String String
  | .dt d =>
      let l := strftimeChars d
      .ok (ofChars (l.take (l.length - 3)))
  | .str s => DbHydroApi.parse_date_str s

/-- One decimal digit of a character, if it is a digit. -/
def readDigit (c : Char) : Option Nat :=
  if '0' ≤ c ∧ c ≤ '9' then some (c.toNat - 48) else none

def read2 : List Char → Option (Nat × List Char)
  | a :: b :: rest => do
      let x ← readDigit a
      let y ← readDigit b
      pure (10 * x + y, rest)
  | _ => none

def read4 : List Char → Option (Nat × List Char)
  | a :: b :: c :: d :: rest => do
      let x ← readDigit a
      let y ← readDigit b
      let z ← readDigit c
      let w ← readDigit d
      pure (1000 * x + 100 * y + 10 * z + w, rest)
  | _ => none

def expectChar (c : Char) : List Char → Option (List Char)
  | x :: rest => if x = c then some rest else none
  | [] => none

/-- The value strptime gives the %f directive: one to six digits closing
the string, right-padded with zeros to microseconds. -/
def readMicro (l : List Char) : Option Nat :=
  if 1 ≤ l.length ∧ l.length ≤ 6 ∧ l.all (fun c => (readDigit c).isSome) then
    some ((l.foldl (fun acc c => 10 * acc + ((readDigit c).getD 0)) 0) *
          10 ^ (6 - l.length))
  else none

def isLeapYear (y : Nat) : Bool :=
  y % 4 = 0 && (y % 100 ≠ 0 || y % 400 = 0)

def daysInMonth (y m : Nat) : Nat :=
  if m = 2 then (if isLeapYear y then 29 else 28)
  else if m = 4 ∨ m = 6 ∨ m = 9 ∨ m = 11 then 30
  else 31

/-- datetime.strptime(s, the canonical format) restricted to canonically
shaped strings: two-digit month / day / hour / minute / second fields (the
shape every canonical string produced from a well-formed date has), with
the range validation the datetime constructor performs.  Inputs this
parser accepts are parsed identically by CPython strptime. -/
def parseCanonical (s : String) : Option PyDateTime := do
  let l := s.data
  let (y, l) ← read4 l
  let l ← expectChar '-' l
  let (mo, l) ← read2 l
  let l ← expectChar '-' l
  let (d, l) ← read2 l
  let (h, l) ← read2 l
  let l ← expectChar ':' l
  let (mi, l) ← read2 l
  let l ← expectChar ':' l
  let (sec, l) ← read2 l
  let l ← expectChar ':' l
  let us ← readMicro l
  if 1 ≤ y ∧ 1 ≤ mo ∧ mo ≤ 12 ∧ 1 ≤ d ∧ d ≤ daysInMonth y mo ∧
     h ≤ 23 ∧ mi ≤ 59 ∧ sec ≤ 59 then
    some ⟨y, mo, d, h, mi, sec, us⟩
  else none

/-- datetime comparison: lexicographic on the components. -/
def dtLt (a b : PyDateTime) : Bool :=
  a.year < b.year || (a.year = b.year &&
  (a.month < b.month || (a.month = b.month &&
  (a.day < b.day || (a.day = b.day &&
  (a.hour < b.hour || (a.hour = b.hour &&
  (a.minute < b.minute || (a.minute = b.minute &&
  (a.second < b.second || (a.second = b.second &&
  a.microsecond < b.microsecond)))))))))))

/-- _handle_date_parameters: canonicalize both endpoints, parse the two
canonical strings back, and reject when start is strictly later than
end. -/
def DbHydroApi.handle_date_parameters (a b : DateInput) :
    Except String (String × String) :=
  match DbHydroApi.parse_date a with
  | .error e => .error e
  | .ok ds =>
      match DbHydroApi.parse_date b with
      | .error e => .error e
      | .ok de =>
          match parseCanonical ds with
          | none => .error "ValueError: time data does not match format"
          | some sdt =>
              match parseCanonical de with
              | none => .error "ValueError: time data does not match format"
              | some edt =>
                  if dtLt edt sdt then
                    .error "The date_start must be earlier or equal to date_end."
                  else .ok (ds, de)

/-- Did the call raise? -/
def isErr {ε α : Type} : Except ε α → Bool
  | .error _ => true
  | .ok _ => false

/-! ## Point response model (models/responses/point.py)

Every dataclass field filled by the generic mapper is dynamically typed
in the source; fields are therefore carried as Option Json, with Python
None as Option.none (the mapper maps both a missing key and an explicit
null to None). -/

/-- Status: the Service envelope (statusCode / statusMessage /
elapsedTime wire keys). -/
structure Status where
  status_code : Option Json
  message : Option Json
  elapsed_time : Option Json

/-- dataclass_from_dict applied to Status (status values in responses are
objects; a non-object here would raise in Python, a path no claim
exercises). -/
def Status.from_json (j : Json) : Status :=
  ⟨pyGet j "statusCode", pyGet j "statusMessage", pyGet j "elapsedTime"⟩

/-- A single (non-null) point of the tsarithmetic response. -/
structure Point where
  value : Option Json
  timestamp : Option Json
  ms_since_epoch : Option Json
  quality_code : Option Json

/-- Point.from_dict on a dict item (the only shape the conversion loop
passes in). -/
def Point.from_obj (j : Json) : Point :=
  ⟨pyGet j "value", pyGet j "timestamp", pyGet j "msSinceEpoch",
   pyGet j "qualityCode"⟩

/-- PointResponse: status plus the ordered points list where a slot is
either a Point or the explicit None marker. -/
structure PointResponse where
  status : Option Status
  points : List (Option Point)

/-- PointResponse.from_dict: the generic mapper copies the raw points
list through (the inner Optional type is not a dataclass), then the
conversion loop keeps explicit nulls as None, turns dicts into Points,
and silently drops items of any other type. -/
def PointResponse.from_dict (data : Json) : PointResponse :=
  let status := (pyGet data "status").map Status.from_json
  let raw : List Json :=
    match pyGet data "points" with
    | some (.arr xs) => xs
    | _ => []
  let pts := raw.filterMap (fun j =>
    match j with
    | .null => some none
    | .obj kvs => some (some (Point.from_obj (.obj kvs)))
    | _ => none)
  ⟨status, pts⟩

def PointResponse.get_valid_points (r : PointResponse) : List Point :=
  r.points.filterMap id

def PointResponse.get_values (r : PointResponse) : List Json :=
  r.get_valid_points.filterMap (fun p => p.value)

/-- Insert into a sorted list of strings without duplicating (the model
of Python sorted(set(...)) built incrementally). -/
def insertSortedDedup (s : String) : List String → List String
  | [] => [s]
  | x :: xs =>
      if s = x then x :: xs
      else if s < x then s :: x :: xs
      else x :: insertSortedDedup s xs

/-- sorted(set(...)) over the string quality codes of the valid points
(quality codes on the wire are strings; other shapes would make Python's
sorted raise, a path no claim exercises). -/
def PointResponse.get_quality_codes (r : PointResponse) : List String :=
  (r.get_valid_points.filterMap (fun p =>
      match p.quality_code with
      | some (.str s) => some s
      | _ => none)).foldl (fun acc s => insertSortedDedup s acc) []

def insertSortedInt (n : Int) : List Int → List Int
  | [] => [n]
  | x :: xs => if n ≤ x then n :: x :: xs else x :: insertSortedInt n xs

/-- sorted timestamps of the valid points, preferring timestamp over
ms_since_epoch (integers on the wire). -/
def PointResponse.get_timestamps (r : PointResponse) : List Int :=
  (r.get_valid_points.filterMap (fun p =>
      match p.timestamp with
      | some (.int n) => some n
      | some _ => none
      | none =>
          match p.ms_since_epoch with
          | some (.int n) => some n
          | _ => none)).foldl (fun acc n => insertSortedInt n acc) []

def PointResponse.get_null_count (r : PointResponse) : Nat :=
  (r.points.filter (fun p => p.isNone)).length

def PointResponse.get_data_count (r : PointResponse) : Nat :=
  r.get_valid_points.length

/-- Python: point.quality_code in quality_codes, where the criterion is a
list of strings (None or a non-string member is never equal to any). -/
def pyInStrList (v : Option Json) (qs : List String) : Bool :=
  match v with
  | some (.str s) => qs.contains s
  | _ => false

/-- filter_by_quality: keep matching points, silently dropping the None
slots, and build a new response around the same status. -/
def PointResponse.filter_by_quality (r : PointResponse) (qs : List String) :
    PointResponse :=
  ⟨r.status,
   r.points.filterMap (fun op =>
     match op with
     | none => none
     | some p => if pyInStrList p.quality_code qs then some (some p) else none)⟩

/-! ## Synchronize response model (models/responses/synchronize.py) -/

/-- Single synchronized data point; each field is filled by the generic
mapper from its wire key. -/
structure SynchronizeValue where
  ms_since_epoch : Option Json
  value : Option Json
  quality_code : Option Json
  percent_available : Option Json
  origin : Option Json
  key_type : Option Json
  tag : Option Json

def SynchronizeValue.from_dict (d : Json) : SynchronizeValue :=
  ⟨pyGet d "msSinceEpoch", pyGet d "value", pyGet d "qualityCode",
   pyGet d "percentAvailable", pyGet d "origin", pyGet d "keyType",
   pyGet d "tag"⟩

structure SynchronizeEntry where
  station_id : String
  key : Json
  values : List SynchronizeValue

/-- The loop body of SynchronizeEntry.from_dict: walk the per-timestamp
records in order, remembering the first usable key field (a record whose
key is an explicit null leaves the slot unset, as dict.get returns None
then) and collecting one SynchronizeValue per dict record. -/
def entryLoop (sid : String) :
    Option Json → List Json → Option Json × List SynchronizeValue
  | key, [] => (key, [])
  | key, d :: rest =>
      if d.isObj then
        let key' :=
          match key with
          | none =>
              (match d.objLookup "key" with
               | none => some (Json.str sid)
               | some .null => none
               | some v => some v)
          | some k => some k
        let r := entryLoop sid key' rest
        (r.1, SynchronizeValue.from_dict d :: r.2)
      else entryLoop sid key rest

/-- SynchronizeEntry.from_dict: values from every dict record in order;
the key is the remembered one when truthy, else the station id. -/
def SynchronizeEntry.from_station_data (sid : String)
    (recs : List (String × Json)) : SynchronizeEntry :=
  let r := entryLoop sid none (recs.map Prod.snd)
  ⟨sid,
   (match r.1 with
    | some k => if pyTruthy k then k else .str sid
    | none => .str sid),
   r.2⟩

/-- station_data[station_id][timestamp_key] = entry_data, creating the
inner dict on first use. -/
def addEntry (acc : List (String × List (String × Json)))
    (sid t : String) (e : Json) : List (String × List (String × Json)) :=
  dictInsert acc sid (dictInsert ((alookup acc sid).getD []) t e)

/-- The inner loop of SynchronizeResponse.from_dict over one timestamp
block, skipping non-dict entries. -/
def processBlock (acc : List (String × List (String × Json))) (t : String) :
    List (String × Json) → List (String × List (String × Json))
  | [] => acc
  | (sid, e) :: rest =>
      processBlock (if e.isObj then addEntry acc sid t e else acc) t rest

/-- The outer loop: iterate the wire mapping (timestamp to block),
skipping non-dict blocks. -/
def buildStationData (acc : List (String × List (String × Json))) :
    List (String × Json) → List (String × List (String × Json))
  | [] => acc
  | (t, b) :: rest =>
      buildStationData
        (match b with
         | .obj kvs => processBlock acc t kvs
         | _ => acc) rest

structure SynchronizeResponse where
  stations : List (String × SynchronizeEntry)

/-- SynchronizeResponse.from_dict: regroup the timestamp-keyed wire
mapping by station, then build one SynchronizeEntry per station. -/
def SynchronizeResponse.from_dict (data : List (String × Json)) :
    SynchronizeResponse :=
  let sd := buildStationData [] data
  ⟨sd.map (fun p => (p.1, SynchronizeEntry.from_station_data p.1 p.2))⟩

/-- get_stations returns the set of station ids; the key list of the
ordered mapping carries the same membership information. -/
def SynchronizeResponse.get_stations (r : SynchronizeResponse) : List String :=
  r.stations.map Prod.fst

/-- filter_by_quality: keep per-station values whose quality code is in
the set and drop stations left with no values. -/
def SynchronizeResponse.filter_by_quality (r : SynchronizeResponse)
    (qs : List String) : SynchronizeResponse :=
  ⟨r.stations.filterMap (fun p =>
     let fv := p.2.values.filter (fun v => pyInStrList v.quality_code qs)
     if fv.isEmpty then none else some (p.1, ⟨p.1, p.2.key, fv⟩))⟩

/-- filter_by_origin: same shape over the origin field. -/
def SynchronizeResponse.filter_by_origin (r : SynchronizeResponse)
    (os : List String) : SynchronizeResponse :=
  ⟨r.stations.filterMap (fun p =>
     let fv := p.2.values.filter (fun v => pyInStrList v.origin os)
     if fv.isEmpty then none else some (p.1, ⟨p.1, p.2.key, fv⟩))⟩

def SynchronizeResponse.get_data_count (r : SynchronizeResponse) : Nat :=
  (r.stations.map (fun p => p.2.values.length)).sum

/-! ## Aggregate response model (models/responses/aggregate.py)

Only the filter operations are claim-relevant; the payload fields are
carried as the raw values the dynamic mapper stores. -/

structure AggregateInterval where
  end_millis_since_epoch : Option Json
  statistic_type : Option Json
  timespan : Option Json
  start_millis_since_epoch : Option Json
  value : Option Json
  key : Option Json
  tag : Option Json
  end_date : Option Json
  start_date : Option Json
  key_type : Option Json
  quality_code : Option Json
  percent_available : Option Json
  origin : Option Json

structure AggregateResponse where
  intervals : List AggregateInterval

def AggregateResponse.filter_by_key (r : AggregateResponse)
    (keys : List String) : AggregateResponse :=
  ⟨r.intervals.filter (fun i => pyInStrList i.key keys)⟩

def AggregateResponse.filter_by_statistic (r : AggregateResponse)
    (sts : List String) : AggregateResponse :=
  ⟨r.intervals.filter (fun i => pyInStrList i.statistic_type sts)⟩

def AggregateResponse.filter_by_quality (r : AggregateResponse)
    (qs : List String) : AggregateResponse :=
  ⟨r.intervals.filter (fun i => pyInStrList i.quality_code qs)⟩

def AggregateResponse.filter_by_origin (r : AggregateResponse)
    (os : List String) : AggregateResponse :=
  ⟨r.intervals.filter (fun i => pyInStrList i.origin os)⟩

/-! ## Time series response model (models/responses/time_series.py)

Only the filter operation is claim-relevant; the metadata fields of an
entry are carried as the raw values the dynamic mapper stores, and the
observation list is the one collection the filter rebuilds. -/

structure ObservationValue where
  qualifier : Option Json
  quality_code : Option Json
  date_time : Option Json
  value : Option Json
  percent_available : Option Json

structure TimeSeriesEntry where
  source_info : Option Json
  period_of_record : Option Json
  name : Option Json
  description : Option Json
  application_name : Option Json
  recorder_class : Option Json
  current_status : Option Json
  time_series_id : Option Json
  reference_elevation : Option Json
  parameter : Option Json
  values : List ObservationValue
  summary : Option Json

structure TimeSeriesResponse where
  status : Option Status
  time_series : List TimeSeriesEntry

/-- filter_by_quality: for each time-series entry, keep the observations
whose quality code is in the list; an entry whose filtered list is empty
is dropped (the source appends only `if filtered_values:`), otherwise a
new entry is built copying every metadata field and substituting the
filtered observations; the response is rebuilt around the same status. -/
def TimeSeriesResponse.filter_by_quality (r : TimeSeriesResponse)
    (qs : List String) : TimeSeriesResponse :=
  ⟨r.status, r.time_series.filterMap (fun ts =>
     let fv := ts.values.filter (fun obs => pyInStrList obs.quality_code qs)
     if fv.isEmpty then none
     else some { ts with values := fv })⟩

/-! ## Interpolate response model (models/responses/interpolate.py)

Only the three filter operations are claim-relevant; entry fields are
carried as the raw values the dynamic mapper stores. -/

structure InterpolateEntry where
  origin : Option Json
  key : Option Json
  key_type : Option Json
  ms_since_epoch : Option Json
  value : Option Json
  tag : Option Json
  quality_code : Option Json
  percent_available : Option Json
  time : Option Json
  date : Option Json

structure InterpolateResponse where
  entries : List InterpolateEntry

def InterpolateResponse.filter_by_key (r : InterpolateResponse)
    (keys : List String) : InterpolateResponse :=
  ⟨r.entries.filter (fun e => pyInStrList e.key keys)⟩

def InterpolateResponse.filter_by_quality (r : InterpolateResponse)
    (qcs : List String) : InterpolateResponse :=
  ⟨r.entries.filter (fun e => pyInStrList e.quality_code qcs)⟩

def InterpolateResponse.filter_by_origin (r : InterpolateResponse)
    (os : List String) : InterpolateResponse :=
  ⟨r.entries.filter (fun e => pyInStrList e.origin os)⟩

/-! ## Generic record mapper (utils.py, dataclass_from_dict)

The reflective Python mapper is embedded over an explicit universe of
dataclass descriptors: a field type is a primitive, a list of some inner
type, or a nested dataclass (name plus field list, each field carrying
its optional json_key alias).  Values are Python values: None, a copied
JSON primitive, a list, or a dataclass instance.  The hasattr(cls,
from_dict) preference is a table of overrides keyed by class name.  A
Python runtime error (look up a key on a non-dict, call list() on a
non-list) is the Except.error case. -/

mutual
inductive DC where
  | mk (name : String) (flds : FieldList)
inductive FieldList where
  | nil
  | cons (fname : String) (jkey : Option String) (ftype : FieldType)
         (rest : FieldList)
inductive FieldType where
  | prim
  | listOf (t : FieldType)
  | dclass (d : DC)
end

def DC.name : DC → String
  | .mk n _ => n

inductive PyVal where
  | pnone
  | json (j : Json)
  | vlist (items : List PyVal)
  | inst (clsName : String) (flds : List (String × PyVal))

/-- The override table: class name to its bespoke from_dict. -/
abbrev Overrides := String → Option (Json → PyVal)

/-- Python data.get(json_key): raises AttributeError on a non-dict. -/
def rawGet (data : Json) (k : String) : Except String (Option Json) :=
  match data with
  | .obj _ => .ok (pyGet data k)
  | _ => .error "AttributeError"

mutual

/-- dataclass_from_dict on a dataclass descriptor. -/
def buildDC (ov : Overrides) (d : DC) (data : Json) : Except String PyVal :=
  match d with
  | .mk name flds => do
      let kv ← buildFields ov flds data
      pure (.inst name kv)

/-- The field loop: resolve each field via its alias (falling back to the
field name) and build its value. -/
def buildFields (ov : Overrides) (fl : FieldList) (data : Json) :
    Except String (List (String × PyVal)) :=
  match fl with
  | .nil => pure []
  | .cons fn jk ft rest => do
      let v ← rawGet data (jk.getD fn)
      let pv ← buildFieldValue ov ft v
      let others ← buildFields ov rest data
      pure ((fn, pv) :: others)

/-- One field's value: absent means empty list for list fields and None
for everything else; a list of dataclasses builds one child per element;
a plain list is copied through; a nested dataclass recurses (preferring
the override); primitives are copied unchanged. -/
def buildFieldValue (ov : Overrides) (ft : FieldType) (v : Option Json) :
    Except String PyVal :=
  match v with
  | none =>
      match ft with
      | .listOf _ => pure (.vlist [])
      | _ => pure .pnone
  | some w =>
      match ft with
      | .listOf inner =>
          match inner with
          | .dclass d =>
              (match w with
               | .arr xs => do
                   let items ← buildItems ov d xs
                   pure (.vlist items)
               | _ => .error "TypeError")
          | _ =>
              (match w with
               | .arr xs => pure (.vlist (xs.map .json))
               | _ => .error "TypeError")
      | .dclass d => createInstance ov d w
      | .prim => pure (.json w)

/-- The per-element construction of a list-of-dataclass field. -/
def buildItems (ov : Overrides) (d : DC) (xs : List Json) :
    Except String (List PyVal) :=
  match xs with
  | [] => pure []
  | x :: rest => do
      let h ← createInstance ov d x
      let t ← buildItems ov d rest
      pure (h :: t)

/-- _create_dataclass_instance: use the type's own from_dict when one
exists, else the generic path. -/
def createInstance (ov : Overrides) (d : DC) (item : Json) :
    Except String PyVal :=
  match ov d.name with
  | some f => pure (f item)
  | none => buildDC ov d item

end

/-- dataclass_from_dict's entry point: anything but a dataclass
descriptor is rejected up front. -/
def dataclass_from_dict (ov : Overrides) (cls : FieldType) (data : Json) :
    Except String PyVal :=
  match cls with
  | .dclass d => buildDC ov d data
  | _ => .error "is not a dataclass"

/-! ## Claim-side characterizations for the error-extraction scan -/

/-- The status code of a status object when present as an integer. -/
def intCodeOf (st : Json) : Option Int :=
  match st.objLookup "statusCode" with
  | some (.int n) => some n
  | _ => none

/-- The status message of a status object (empty when absent, matching
the source's default). -/
def msgStrOf (st : Json) : String :=
  match st.objLookup "statusMessage" with
  | some (.str s) => s
  | _ => ""

/-- The claim's error test, amended for Python truthiness: the status
code is present, nonzero and outside [200, 300), or the status message
contains the substring error case-insensitively. -/
def statusFlagged (st : Json) : Bool :=
  (match intCodeOf st with
   | some n => decide (n ≠ 0 ∧ (n < 200 ∨ 300 ≤ n))
   | none => false)
  || strContainsError (msgStrOf st)

/-- The claim's scan: the first top-level entry whose value is an object
holding a flagged status object. -/
def claimScan : List (String × Json) → Option Json
  | [] => none
  | (_, v) :: rest =>
      match v with
      | .obj vkvs =>
          match alookup vkvs "status" with
          | some st =>
              if st.isObj then
                (if statusFlagged st then some st else claimScan rest)
              else claimScan rest
          | none => claimScan rest
      | _ => claimScan rest

/-- Well-formedness of one status object: statusCode absent, null or an
integer, and statusMessage absent or a string (every real Service
response satisfies this; outside it the source's scan dies on a TypeError
or AttributeError and silently reports no error). -/
def statusWF (st : Json) : Bool :=
  (match st.objLookup "statusCode" with
   | none => true
   | some .null => true
   | some (.int _) => true
   | some _ => false) &&
  (match st.objLookup "statusMessage" with
   | none => true
   | some (.str _) => true
   | some _ => false)

/-- Well-formedness of a decoded body: every nested status object is
well-formed. -/
def dataWF : Json → Bool
  | .obj kvs => kvs.all (fun p =>
      match p.2 with
      | .obj vkvs =>
          match alookup vkvs "status" with
          | some st => if st.isObj then statusWF st else true
          | none => true
      | _ => true)
  | _ => true


/-- Concrete wire body for the C1 witness: an HTTP 200 answer whose
envelope carries a Service-level 400 status. -/
def C1wireData : Json :=
  .obj [("timeSeriesResponse", .obj [("status",
     .obj [("statusCode", .int 400), ("statusMessage", .str "Bad request"),
           ("elapsedTime", .dec 105 2)])])]

def C1statusObj : Json :=
  .obj [("statusCode", .int 400), ("statusMessage", .str "Bad request"),
        ("elapsedTime", .dec 105 2)]
/-- Concrete wire body of the claim's example for the C4 witness. -/
def C4pts : List Json :=
  [.obj [("value", .dec 1575 2), ("msSinceEpoch", .int 1672574400000),
         ("qualityCode", .str "A")],
   .null]

def C4data : Json :=
  .obj [("status", .obj [("statusCode", .int 200),
                         ("statusMessage", .str "OK"),
                         ("elapsedTime", .dec 5 1)]),
        ("points", .arr C4pts)]
/-- The shared body of the two synchronize filter operations over an
arbitrary per-value predicate. -/
def syncFilter (stations : List (String × SynchronizeEntry))
    (pred : SynchronizeValue → Bool) : List (String × SynchronizeEntry) :=
  stations.filterMap (fun p =>
    let fv := p.2.values.filter pred
    if fv.isEmpty then none else some (p.1, ⟨p.1, p.2.key, fv⟩))
def C6point : Point := ⟨some (.dec 155 1), none, none, some (.str "A")⟩

def C6sv : SynchronizeValue :=
  ⟨some (.int 1), some (.dec 7 0), some (.str "A"), none,
   some (.str "SCADA"), none, none⟩

def C6iv : AggregateInterval :=
  ⟨none, some (.str "MAX"), none, none, some (.dec 125 1),
   some (.str "S123"), none, none, none, none, some (.str "A"), none,
   some (.str "SCADA")⟩

def C6obs : ObservationValue :=
  ⟨none, some (.str "A"), some (.str "2023-01-01T00:00:00"),
   some (.dec 125 1), none⟩

def C6ts : TimeSeriesEntry :=
  ⟨none, none, some (.str "Water Level"), none, none, none, none,
   some (.str "TS1"), none, none, [C6obs], none⟩

def C6ie : InterpolateEntry :=
  ⟨some (.str "SCADA"), some (.str "S123-R"), none,
   some (.int 1672574400000), some (.dec 125 1), none, some (.str "A"),
   none, none, none⟩

/-- Concrete override table for the C5 witness: only Timespan has a
bespoke from_dict. -/
def C5ov : Overrides :=
  fun n => if n = "Timespan" then some (fun j => .json j) else none
/-! ## Synchronize inversion (C3) -/

/-- The record a single timestamp block contributes for a station: the
block's entry for it, when that entry is a dict. -/
def blockRec (kvs : List (String × Json)) (sid t : String) :
    Option (String × Json) :=
  match alookup kvs sid with
  | some e => if e.isObj then some (t, e) else none
  | none => none

/-- Claim-side grouping: the (timestamp, record) pairs a station collects
from the wire mapping, in the order the timestamps are encountered. -/
def recsOf (sid : String) : List (String × Json) → List (String × Json)
  | [] => []
  | (t, b) :: rest =>
      (match b with
       | .obj kvs =>
           (match blockRec kvs sid t with
            | some r => [r]
            | none => [])
       | _ => []) ++ recsOf sid rest

/-- Well-formedness of the wire mapping: distinct timestamp keys and
distinct station keys inside each block (Python dicts guarantee both). -/
def syncWF (data : List (String × Json)) : Bool :=
  decide ((data.map Prod.fst).Nodup) &&
  data.all (fun p =>
    match p.2 with
    | .obj kvs => decide ((kvs.map Prod.fst).Nodup)
    | _ => true)

/-- A record's key field is usable: absent, or a non-empty string. -/
def keyFieldOK (e : Json) : Bool :=
  match e.objLookup "key" with
  | none => true
  | some (.str s) => s ≠ ""
  | some _ => false

/-- Key well-formedness: every dict record inside every block has a
usable key field. -/
def keyWF (data : List (String × Json)) : Bool :=
  data.all (fun p =>
    match p.2 with
    | .obj kvs => kvs.all (fun q => !q.2.isObj || keyFieldOK q.2)
    | _ => true)

def blocksNodup (tblocks : List (String × Json)) : Prop :=
  ∀ p ∈ tblocks, ∀ kvs, p.2 = Json.obj kvs → (kvs.map Prod.fst).Nodup
def C3wire : List (String × Json) :=
  [("1700000000000", .obj
      [("S6-H", .obj [("key", .str "S6-H-K"), ("value", .dec 1575 2),
         ("qualityCode", .str "A")]),
       ("S6P-3", .obj [("value", .dec 812 1), ("qualityCode", .str "E")])]),
   ("1700000060000", .obj
      [("S6-H", .obj [("value", .dec 1580 2), ("qualityCode", .str "A")])])]

def C3entryH : SynchronizeEntry :=
  SynchronizeEntry.from_station_data "S6-H" (recsOf "S6-H" C3wire)


lemma statusCheck_of_wf (st : Json) (h : statusWF st = true) :
    statusCheck st =
      .ok (if statusFlagged st then
             some ⟨.str (msgStrOf st), (intCodeOf st).map Json.int,
                   pyGet st "elapsedTime"⟩
           else none) := by
  unfold statusWF at h
  rw [Bool.and_eq_true] at h
  obtain ⟨h1, h2⟩ := h
  rcases hc : st.objLookup "statusCode" with _ | cv <;>
    rcases hm : st.objLookup "statusMessage" with _ | mv
  · by_cases hs : strContainsError "" = true <;>
      simp [statusCheck, statusFlagged, intCodeOf, msgStrOf, hc, hm, hs]
  · rw [hm] at h2
    rcases mv with _ | b | n | ⟨m, sc⟩ | s | items | kvs <;> simp at h2
    by_cases hs : strContainsError s = true <;>
      simp [statusCheck, statusFlagged, intCodeOf, msgStrOf, hc, hm, hs]
  · rw [hc] at h1
    rcases cv with _ | b | n | ⟨m, sc⟩ | s | items | kvs <;> simp at h1
    · by_cases hs : strContainsError "" = true <;>
        simp [statusCheck, statusFlagged, intCodeOf, msgStrOf, hc, hm, hs,
              pyTruthy]
    · by_cases h0 : n = 0
      · subst h0
        by_cases hs : strContainsError "" = true <;>
          simp [statusCheck, statusFlagged, intCodeOf, msgStrOf, hc, hm, hs,
                pyTruthy, jsonAsInt]
      · by_cases hr : n < 200 ∨ 300 ≤ n
        · simp [statusCheck, statusFlagged, intCodeOf, msgStrOf, hc, hm, h0,
                hr, pyTruthy, jsonAsInt]
        · by_cases hs : strContainsError "" = true <;>
            simp [statusCheck, statusFlagged, intCodeOf, msgStrOf, hc, hm, h0,
                  hr, hs, pyTruthy, jsonAsInt]
  · rw [hc] at h1
    rw [hm] at h2
    rcases mv with _ | b | n | ⟨m, sc⟩ | s | items | kvs <;> simp at h2
    rcases cv with _ | b' | n' | ⟨m', sc'⟩ | s' | items' | kvs' <;> simp at h1
    · by_cases hs : strContainsError s = true <;>
        simp [statusCheck, statusFlagged, intCodeOf, msgStrOf, hc, hm, hs,
              pyTruthy]
    · by_cases h0 : n' = 0
      · subst h0
        by_cases hs : strContainsError s = true <;>
          simp [statusCheck, statusFlagged, intCodeOf, msgStrOf, hc, hm, hs,
                pyTruthy, jsonAsInt]
      · by_cases hr : n' < 200 ∨ 300 ≤ n'
        · simp [statusCheck, statusFlagged, intCodeOf, msgStrOf, hc, hm, h0,
                hr, pyTruthy, jsonAsInt]
        · by_cases hs : strContainsError s = true <;>
            simp [statusCheck, statusFlagged, intCodeOf, msgStrOf, hc, hm, h0,
                  hr, hs, pyTruthy, jsonAsInt]

lemma extract_go_eq_claimScan (kvs : List (String × Json))
    (h : kvs.all (fun p =>
      match p.2 with
      | .obj vkvs =>
          match alookup vkvs "status" with
          | some st => if st.isObj then statusWF st else true
          | none => true
      | _ => true) = true) :
    extractApiErrorGo kvs =
      (claimScan kvs).map (fun st =>
        ⟨.str (msgStrOf st), (intCodeOf st).map Json.int,
         pyGet st "elapsedTime"⟩) := by
  induction kvs with
  | nil => rfl
  | cons p rest ih =>
      rw [List.all_cons, Bool.and_eq_true] at h
      obtain ⟨hp, hrest⟩ := h
      have ihr := ih hrest
      rcases p with ⟨k, v⟩
      rcases v with _ | b | n | ⟨m, sc⟩ | s | items | vkvs
      · exact ihr
      · exact ihr
      · exact ihr
      · exact ihr
      · exact ihr
      · exact ihr
      · have hp' : (match alookup vkvs "status" with
                    | some st => if st.isObj then statusWF st else true
                    | none => true) = true := hp
        show (match alookup vkvs "status" with
              | some st =>
                  if st.isObj then
                    (match statusCheck st with
                     | .error _ => none
                     | .ok (some e) => some e
                     | .ok none => extractApiErrorGo rest)
                  else extractApiErrorGo rest
              | none => extractApiErrorGo rest) =
             Option.map _ (match alookup vkvs "status" with
              | some st =>
                  if st.isObj then
                    (if statusFlagged st then some st else claimScan rest)
                  else claimScan rest
              | none => claimScan rest)
        rcases hst : alookup vkvs "status" with _ | st
        · rw [hst] at hp'
          exact ihr
        · rw [hst] at hp'
          have hp2 : (if st.isObj then statusWF st else true) = true := hp'
          show (if st.isObj then
                  (match statusCheck st with
                   | .error _ => none
                   | .ok (some e) => some e
                   | .ok none => extractApiErrorGo rest)
                else extractApiErrorGo rest) =
               Option.map _ (if st.isObj then
                  (if statusFlagged st then some st else claimScan rest)
                else claimScan rest)
          rcases hobj : st.isObj with _ | _
          · simp [ihr]
          · rw [hobj] at hp2
            simp at hp2
            rw [statusCheck_of_wf st hp2]
            by_cases hf : statusFlagged st = true
            · simp [hf]
            · simp [hf, ihr]

lemma extract_eq_claimScan (kvs : List (String × Json))
    (h : dataWF (.obj kvs) = true) :
    DbHydroApi.extract_api_error (.obj kvs) =
      (claimScan kvs).map (fun st =>
        ⟨.str (msgStrOf st), (intCodeOf st).map Json.int,
         pyGet st "elapsedTime"⟩) := by
  exact extract_go_eq_claimScan kvs h

/-- C1.  For every transport Result handled by _perform_request, over
well-formed bodies: sentinel status 0 raises the unified exception with
the transport message alone, independent of the body; otherwise the first
top-level entry holding a status object whose code is present, nonzero
and outside [200, 300), or whose message contains the substring error
case-insensitively, produces the enriched exception carrying that
status's code, message and elapsed time; otherwise a non-2xx HTTP status
raises carrying only the HTTP status; otherwise the decoded body comes
back unchanged.  (Amended from the claim: a status code that is present
but zero is falsy in the source's truthiness test, so it is not treated
as an error by the code check.) -/
theorem C1_perform_request_error_handling (r : Result)
    (hwf : dataWF r.data = true) :
    (∀ m d1 d2, DbHydroApi.perform_request ⟨0, m, d1⟩ =
                DbHydroApi.perform_request ⟨0, m, d2⟩)
    ∧ (r.status_code = 0 →
        DbHydroApi.perform_request r =
          .error ⟨r.message, none, none, none, none⟩)
    ∧ (r.status_code ≠ 0 → ∀ kvs, r.data = .obj kvs →
        (∀ st, claimScan kvs = some st →
            DbHydroApi.perform_request r =
              .error ⟨"API request failed: " ++ msgStrOf st,
                      some r.status_code, intCodeOf st,
                      some (msgStrOf st), pyGet st "elapsedTime"⟩)
        ∧ (claimScan kvs = none → 200 ≤ r.status_code → r.status_code < 300 →
            DbHydroApi.perform_request r = .ok r.data)
        ∧ (claimScan kvs = none →
            (r.status_code < 200 ∨ 300 ≤ r.status_code) →
            DbHydroApi.perform_request r =
              .error ⟨"HTTP request failed with status " ++
                        toString r.status_code,
                      some r.status_code, none, none, none⟩)) := by
  obtain ⟨sc, msg, data⟩ := r
  simp only at hwf ⊢
  refine ⟨fun m d1 d2 => rfl, fun h0 => ?_, fun hne kvs hdata => ?_⟩
  · subst h0
    rfl
  · subst hdata
    have hx := extract_eq_claimScan kvs hwf
    refine ⟨fun st hst => ?_, fun hnone h2a h2b => ?_, fun hnone hout => ?_⟩
    · unfold DbHydroApi.perform_request DbHydroApi.check_api_response
      simp only [hne, if_false]
      rw [hx, hst]
      simp only [Option.map_some']
      simp [pyStr, toStatusMessage]
      cases intCodeOf st <;> simp [jsonAsInt]
    · unfold DbHydroApi.perform_request DbHydroApi.check_api_response
      simp only [hne, if_false]
      rw [hx, hnone]
      simp only [Option.map_none']
      have hno : ¬ ((sc : Int) < 200 ∨ 300 ≤ sc) := by omega
      simp [hno]
    · unfold DbHydroApi.perform_request DbHydroApi.check_api_response
      simp only [hne, if_false]
      rw [hx, hnone]
      simp only [Option.map_none']
      simp [hout]

/-- C1 counterexample to the claim as stated: a status object whose code
is present and equal to 0 (outside [200, 300)) with a benign message, on
an HTTP 200 response, is not treated as an error — the body is returned
unchanged where the claim mandates a raise. -/
theorem C1_counterexample :
    DbHydroApi.perform_request
      ⟨200, "OK",
       .obj [("resp", .obj [("status",
          .obj [("statusCode", .int 0),
                ("statusMessage", .str "completed")])])]⟩ =
    .ok (.obj [("resp", .obj [("status",
          .obj [("statusCode", .int 0),
                ("statusMessage", .str "completed")])])]) := by
  rfl

theorem C1_witness :
    dataWF C1wireData = true ∧
    DbHydroApi.perform_request ⟨200, "OK", C1wireData⟩ =
      .error ⟨"API request failed: Bad request", some 200, some 400,
              some "Bad request", some (.dec 105 2)⟩ := by
  refine ⟨rfl, ?_⟩
  have h := ((C1_perform_request_error_handling ⟨200, "OK", C1wireData⟩
      rfl).2.2 (by decide) _ rfl).1 C1statusObj rfl
  exact h

lemma string_append_empty (s : String) : s ++ "" = s := by
  obtain ⟨l⟩ := s
  show String.mk (l ++ []) = String.mk l
  rw [List.append_nil]

lemma sepApiError (t : String) :
    " | " ++ ("API Error: " ++ t) = " | API Error: " ++ t := by
  rw [← String.append_assoc]
  rfl

lemma sepHttpStatus (t : String) :
    " | " ++ ("HTTP Status: " ++ t) = " | HTTP Status: " ++ t := by
  rw [← String.append_assoc]
  rfl

lemma sepApiStatus (t : String) :
    " | " ++ ("API Status: " ++ t) = " | API Status: " ++ t := by
  rw [← String.append_assoc]
  rfl

/-- C8.  The rendering of a DbHydroException concatenates, in order: the
message; the Service error message when present and non-empty; the HTTP
status when present and nonzero; the Service status code when present,
nonzero and different from the HTTP status code — with the two concrete
renderings of the claim, which differ.  (Amended from the claim: the
source tests each optional part with Python truthiness, so a present but
zero status code and a present but empty message are omitted.) -/
theorem C8_exception_rendering :
    (∀ e : DbHydroException,
      e.render =
        e.message ++
        (match e.api_status_message with
         | some m => if m = "" then "" else " | API Error: " ++ m
         | none => "") ++
        (match e.http_status_code with
         | some c => if c = 0 then "" else " | HTTP Status: " ++ toString c
         | none => "") ++
        (match e.api_status_code, e.http_status_code with
         | some a, some h =>
             if a = 0 ∨ a = h then "" else " | API Status: " ++ toString a
         | some a, none => if a = 0 then "" else " | API Status: " ++ toString a
         | none, _ => ""))
    ∧ DbHydroException.render ⟨"X", some 404, none, none, none⟩ =
        "X | HTTP Status: 404"
    ∧ DbHydroException.render ⟨"X", some 200, some 400, none, none⟩ =
        "X | HTTP Status: 200 | API Status: 400"
    ∧ DbHydroException.render ⟨"X", some 404, none, none, none⟩ ≠
        DbHydroException.render ⟨"X", some 200, some 400, none, none⟩ := by
  refine ⟨fun e => ?_, rfl, rfl, by decide⟩
  obtain ⟨msg, hc, ac, am, el⟩ := e
  rcases am with _ | m <;> rcases hc with _ | c <;> rcases ac with _ | a <;>
    simp only [DbHydroException.render, pyJoin]
  · simp [string_append_empty]
  · by_cases haz : a = 0 <;>
      simp [pyJoin, haz, String.append_assoc, string_append_empty,
            sepApiError, sepHttpStatus, sepApiStatus]
  · by_cases hcz : c = 0 <;>
      simp [pyJoin, hcz, String.append_assoc, string_append_empty,
            sepApiError, sepHttpStatus, sepApiStatus]
  · by_cases hcz : c = 0 <;> by_cases haz : a = 0 <;> by_cases hac : a = c <;>
      simp [pyJoin, hcz, haz, hac, String.append_assoc, string_append_empty,
            sepApiError, sepHttpStatus, sepApiStatus]
  · by_cases hm : m = "" <;>
      simp [pyJoin, hm, String.append_assoc, string_append_empty,
            sepApiError, sepHttpStatus, sepApiStatus]
  · by_cases hm : m = "" <;> by_cases haz : a = 0 <;>
      simp [pyJoin, hm, haz, String.append_assoc, string_append_empty,
            sepApiError, sepHttpStatus, sepApiStatus]
  · by_cases hm : m = "" <;> by_cases hcz : c = 0 <;>
      simp [pyJoin, hm, hcz, String.append_assoc, string_append_empty,
            sepApiError, sepHttpStatus, sepApiStatus]
  · by_cases hm : m = "" <;> by_cases hcz : c = 0 <;> by_cases haz : a = 0 <;>
      by_cases hac : a = c <;>
      simp [pyJoin, hm, hcz, haz, hac, String.append_assoc,
            string_append_empty, sepApiError, sepHttpStatus, sepApiStatus]

/-- C8 counterexample to the claim as stated: an exception whose HTTP
status is present but equal to 0 renders as the bare message, where the
claim mandates that a present HTTP status always appears. -/
theorem C8_counterexample :
    DbHydroException.render ⟨"X", some 0, none, none, none⟩ = "X" ∧
    ("X" : String) ≠ "X | HTTP Status: 0" := by
  exact ⟨rfl, by decide⟩

/-! ## Date normalization lemmas -/

lemma natDigits_length (w n : Nat) : (natDigits w n).length = w := by
  induction w generalizing n with
  | zero => rfl
  | succ w ih => simp [natDigits, ih]

lemma natDigits_split (a b n : Nat) :
    natDigits (a + b) n =
      natDigits a (n / 10 ^ b) ++ natDigits b (n % 10 ^ b) := by
  induction b generalizing n with
  | zero => simp [natDigits, Nat.mod_one]
  | succ b ih =>
      rw [Nat.add_succ]
      show natDigits (a + b) (n / 10) ++ [digitChar (n % 10)] = _
      rw [ih (n / 10)]
      have h1 : n / 10 / 10 ^ b = n / 10 ^ (b + 1) := by
        rw [Nat.div_div_eq_div_mul, ← pow_succ']
      have h2 : n / 10 % 10 ^ b = n % 10 ^ (b + 1) / 10 := by
        rw [pow_succ', Nat.mod_mul_right_div_self]
      have h3 : n % 10 = n % 10 ^ (b + 1) % 10 := by
        rw [Nat.mod_mod_of_dvd]
        exact dvd_pow_self 10 (Nat.succ_ne_zero b)
      rw [h1, h2, h3]
      show _ = natDigits a (n / 10 ^ (b + 1)) ++
               (natDigits b (n % 10 ^ (b + 1) / 10) ++
                [digitChar (n % 10 ^ (b + 1) % 10)])
      rw [List.append_assoc]

lemma take_three_digits (n m : Nat) :
    (natDigits 3 n ++ natDigits 3 m).take 3 = natDigits 3 n := by
  calc (natDigits 3 n ++ natDigits 3 m).take 3
      = (natDigits 3 n ++ natDigits 3 m).take (natDigits 3 n).length := by
        rw [natDigits_length]
    _ = natDigits 3 n := List.take_left _ _

/-- C2.  _parse_date maps a structured datetime to the canonical form
with milliseconds truncated to three digits; a string goes through
separator removal (T, else an internal space when longer than ten
characters) and is then completed by the colon count of the suffix after
the first ten characters (3 unchanged, 2 append :000, 1 append :00:000,
0 append :00:00:000); a ten-character string with exactly two hyphens
gets 00:00:00:000 appended; any other shape is rejected; and the four
concrete examples of the claim hold. -/
theorem C2_parse_date_normalization :
    (∀ d : PyDateTime, d.microsecond < 1000000 →
        DbHydroApi.parse_date (.dt d) =
          .ok (ofChars (natDigits 4 d.year ++ ['-'] ++ natDigits 2 d.month ++
            ['-'] ++ natDigits 2 d.day ++ natDigits 2 d.hour ++ [':'] ++
            natDigits 2 d.minute ++ [':'] ++ natDigits 2 d.second ++ [':'] ++
            natDigits 3 (d.microsecond / 1000))))
    ∧ (∀ s : String, (removeSeparators s).data.length > 10 →
        (((removeSeparators s).data.drop 10).count ':' = 3 →
           DbHydroApi.parse_date (.str s) = .ok (removeSeparators s))
        ∧ (((removeSeparators s).data.drop 10).count ':' = 2 →
           DbHydroApi.parse_date (.str s) =
             .ok (removeSeparators s ++ ":000"))
        ∧ (((removeSeparators s).data.drop 10).count ':' = 1 →
           DbHydroApi.parse_date (.str s) =
             .ok (removeSeparators s ++ ":00:000"))
        ∧ (((removeSeparators s).data.drop 10).count ':' = 0 →
           DbHydroApi.parse_date (.str s) =
             .ok (removeSeparators s ++ ":00:00:000")))
    ∧ (∀ s : String, (removeSeparators s).data.length = 10 →
        (removeSeparators s).data.count '-' = 2 →
        DbHydroApi.parse_date (.str s) =
          .ok (removeSeparators s ++ "00:00:00:000"))
    ∧ (∀ s : String, ¬ (removeSeparators s).data.length > 10 →
        ¬ ((removeSeparators s).data.length = 10 ∧
           (removeSeparators s).data.count '-' = 2) →
        isErr (DbHydroApi.parse_date (.str s)) = true)
    ∧ DbHydroApi.parse_date (.str "2023-01-01") =
        .ok "2023-01-0100:00:00:000"
    ∧ DbHydroApi.parse_date (.str "2023-01-01 12:30") =
        .ok "2023-01-0112:30:00:000"
    ∧ DbHydroApi.parse_date (.str "2023-01-01T12:30:45") =
        .ok "2023-01-0112:30:45:000"
    ∧ DbHydroApi.parse_date (.str "2023-01-0112:30:45:123") =
        .ok "2023-01-0112:30:45:123" := by
  refine ⟨fun d hus => ?_, fun s hlen => ⟨fun h3 => ?_, fun h2 => ?_,
    fun h1 => ?_, fun h0 => ?_⟩, fun s hlen hhyp => ?_, fun s h1 h2 => ?_,
    rfl, rfl, rfl, rfl⟩
  · show Except.ok (ofChars ((strftimeChars d).take
        ((strftimeChars d).length - 3))) = _
    have hlen : (strftimeChars d).length = 25 := by
      simp [strftimeChars, natDigits_length]
    have hpre : (natDigits 4 d.year ++ ['-'] ++ natDigits 2 d.month ++ ['-'] ++
        natDigits 2 d.day ++ natDigits 2 d.hour ++ [':'] ++
        natDigits 2 d.minute ++ [':'] ++ natDigits 2 d.second ++
        [':']).length = 19 := by
      simp [natDigits_length]
    have hsplit : natDigits 6 d.microsecond =
        natDigits 3 (d.microsecond / 1000) ++
        natDigits 3 (d.microsecond % 1000) := by
      have := natDigits_split 3 3 d.microsecond
      norm_num at this
      exact this
    rw [hlen]
    show Except.ok (ofChars ((_ ++ natDigits 6 d.microsecond).take 22)) = _
    rw [show (22 : Nat) = 19 + 3 from rfl]
    rw [show (19 : Nat) = (natDigits 4 d.year ++ ['-'] ++ natDigits 2 d.month ++
        ['-'] ++ natDigits 2 d.day ++ natDigits 2 d.hour ++ [':'] ++
        natDigits 2 d.minute ++ [':'] ++ natDigits 2 d.second ++
        [':']).length from hpre.symm]
    rw [List.take_append]
    rw [hsplit]
    rw [take_three_digits]
  · simp only [DbHydroApi.parse_date, DbHydroApi.parse_date_str]
    rw [if_pos hlen, if_pos h3]
  · simp only [DbHydroApi.parse_date, DbHydroApi.parse_date_str]
    rw [if_pos hlen, if_neg (by omega), if_pos h2]
  · simp only [DbHydroApi.parse_date, DbHydroApi.parse_date_str]
    rw [if_pos hlen, if_neg (by omega), if_neg (by omega), if_pos h1]
  · simp only [DbHydroApi.parse_date, DbHydroApi.parse_date_str]
    rw [if_pos hlen, if_neg (by omega), if_neg (by omega), if_neg (by omega)]
  · simp only [DbHydroApi.parse_date, DbHydroApi.parse_date_str]
    rw [if_neg (by omega), if_pos ⟨hlen, hhyp⟩]
  · simp only [DbHydroApi.parse_date, DbHydroApi.parse_date_str]
    rw [if_neg h1, if_neg h2]
    rfl

theorem C2_witness :
    ((removeSeparators "2023-01-01 12:30").data.length > 10 ∧
     ((removeSeparators "2023-01-01 12:30").data.drop 10).count ':' = 1 ∧
     DbHydroApi.parse_date (.str "2023-01-01 12:30") =
       .ok (removeSeparators "2023-01-01 12:30" ++ ":00:000"))
    ∧ ((1692 : Nat) < 1000000 ∧
       DbHydroApi.parse_date (.dt ⟨2023, 1, 1, 12, 30, 45, 123456⟩) =
         .ok (ofChars (natDigits 4 2023 ++ ['-'] ++ natDigits 2 1 ++ ['-'] ++
           natDigits 2 1 ++ natDigits 2 12 ++ [':'] ++ natDigits 2 30 ++
           [':'] ++ natDigits 2 45 ++ [':'] ++ natDigits 3 (123456 / 1000)))) := by
  constructor
  · exact ⟨by decide, by decide,
      (C2_parse_date_normalization.2.1 "2023-01-01 12:30"
        (by decide)).2.2.1 (by decide)⟩
  · exact ⟨by decide,
      C2_parse_date_normalization.1 ⟨2023, 1, 1, 12, 30, 45, 123456⟩
        (by decide)⟩

/-- C10.  _parse_date validates shape only: every string whose length
after separator removal exceeds ten characters is accepted and returned
with a zero-padding suffix determined solely by the colon count of the
characters past position ten, regardless of content (a twelve-letter
nonsense string included); the invalid-format error is raised exactly for
the remaining strings that are not ten characters long with two
hyphens. -/
theorem C10_parse_date_shape_only :
    (∀ s : String, (removeSeparators s).data.length > 10 →
        DbHydroApi.parse_date (.str s) =
          .ok (removeSeparators s ++
            (if ((removeSeparators s).data.drop 10).count ':' = 3 then ""
             else if ((removeSeparators s).data.drop 10).count ':' = 2 then
               ":000"
             else if ((removeSeparators s).data.drop 10).count ':' = 1 then
               ":00:000"
             else ":00:00:000")))
    ∧ (∀ s : String, isErr (DbHydroApi.parse_date (.str s)) = true ↔
        ¬ ((removeSeparators s).data.length > 10) ∧
        ¬ ((removeSeparators s).data.length = 10 ∧
           (removeSeparators s).data.count '-' = 2))
    ∧ DbHydroApi.parse_date (.str "abcdefghijkl") =
        .ok "abcdefghijkl:00:00:000" := by
  refine ⟨fun s hlen => ?_, fun s => ?_, rfl⟩
  · simp only [DbHydroApi.parse_date, DbHydroApi.parse_date_str]
    rw [if_pos hlen]
    by_cases h3 : ((removeSeparators s).data.drop 10).count ':' = 3
    · rw [if_pos h3, if_pos h3, string_append_empty]
    · rw [if_neg h3, if_neg h3]
      by_cases h2 : ((removeSeparators s).data.drop 10).count ':' = 2
      · rw [if_pos h2, if_pos h2]
      · rw [if_neg h2, if_neg h2]
        by_cases h1 : ((removeSeparators s).data.drop 10).count ':' = 1
        · rw [if_pos h1, if_pos h1]
        · rw [if_neg h1, if_neg h1]
  · simp only [DbHydroApi.parse_date, DbHydroApi.parse_date_str]
    by_cases hA : (removeSeparators s).data.length > 10
    · rw [if_pos hA]
      constructor
      · intro h
        exfalso
        revert h
        split_ifs <;> simp [isErr]
      · intro h
        exact absurd hA h.1
    · rw [if_neg hA]
      by_cases hB : (removeSeparators s).data.length = 10 ∧
          (removeSeparators s).data.count '-' = 2
      · rw [if_pos hB]
        simp [isErr, hA, hB]
      · rw [if_neg hB]
        exact ⟨fun h => ⟨hA, hB⟩, fun h => rfl⟩

theorem C10_witness :
    (removeSeparators "abcdefghijkl").data.length > 10 ∧
    DbHydroApi.parse_date (.str "abcdefghijkl") =
      .ok (removeSeparators "abcdefghijkl" ++
        (if ((removeSeparators "abcdefghijkl").data.drop 10).count ':' = 3
         then ""
         else if ((removeSeparators "abcdefghijkl").data.drop 10).count ':' = 2
         then ":000"
         else if ((removeSeparators "abcdefghijkl").data.drop 10).count ':' = 1
         then ":00:000"
         else ":00:00:000")) :=
  ⟨by decide, C10_parse_date_shape_only.1 "abcdefghijkl" (by decide)⟩

lemma dtLt_irrefl (d : PyDateTime) : dtLt d d = false := by
  simp [dtLt]

/-- C7.  _handle_date_parameters canonicalizes both endpoints through
_parse_date and, whenever both canonical strings denote date-times,
raises exactly when the canonical start is strictly later than the
canonical end, returning the two canonical strings otherwise; the call
with start 2023-01-02 and end 2023-01-01 fails, while equal start and end
succeed with identical canonical strings. -/
theorem C7_handle_date_parameters :
    (∀ (a b : DateInput) (sa sb : String) (da db : PyDateTime),
        DbHydroApi.parse_date a = .ok sa →
        DbHydroApi.parse_date b = .ok sb →
        parseCanonical sa = some da →
        parseCanonical sb = some db →
        isErr (DbHydroApi.handle_date_parameters a b) = dtLt db da
        ∧ (dtLt db da = false →
            DbHydroApi.handle_date_parameters a b = .ok (sa, sb)))
    ∧ (∀ (a : DateInput) (sa : String) (da : PyDateTime),
        DbHydroApi.parse_date a = .ok sa →
        parseCanonical sa = some da →
        DbHydroApi.handle_date_parameters a a = .ok (sa, sa))
    ∧ isErr (DbHydroApi.handle_date_parameters
        (.str "2023-01-02") (.str "2023-01-01")) = true
    ∧ DbHydroApi.handle_date_parameters
        (.str "2023-01-01") (.str "2023-01-01") =
      .ok ("2023-01-0100:00:00:000", "2023-01-0100:00:00:000") := by
  refine ⟨fun a b sa sb da db hpa hpb hca hcb => ?_,
          fun a sa da hpa hca => ?_, rfl, rfl⟩
  · unfold DbHydroApi.handle_date_parameters
    simp only [hpa, hpb, hca, hcb]
    rcases hlt : dtLt db da with _ | _
    · rw [if_neg (by simp [hlt])]
      exact ⟨rfl, fun _ => rfl⟩
    · rw [if_pos (by simp [hlt])]
      exact ⟨rfl, fun h => by simp at h⟩
  · unfold DbHydroApi.handle_date_parameters
    simp only [hpa, hca]
    rw [if_neg (by simp [dtLt_irrefl])]

theorem C7_witness :
    DbHydroApi.parse_date (.str "2023-01-02") = .ok "2023-01-0200:00:00:000" ∧
    DbHydroApi.parse_date (.str "2023-01-01") = .ok "2023-01-0100:00:00:000" ∧
    parseCanonical "2023-01-0200:00:00:000" = some ⟨2023, 1, 2, 0, 0, 0, 0⟩ ∧
    parseCanonical "2023-01-0100:00:00:000" = some ⟨2023, 1, 1, 0, 0, 0, 0⟩ ∧
    isErr (DbHydroApi.handle_date_parameters
        (.str "2023-01-02") (.str "2023-01-01")) =
      dtLt ⟨2023, 1, 1, 0, 0, 0, 0⟩ ⟨2023, 1, 2, 0, 0, 0, 0⟩ :=
  ⟨rfl, rfl, rfl, rfl,
   (C7_handle_date_parameters.1 (.str "2023-01-02") (.str "2023-01-01")
      "2023-01-0200:00:00:000" "2023-01-0100:00:00:000"
      ⟨2023, 1, 2, 0, 0, 0, 0⟩ ⟨2023, 1, 1, 0, 0, 0, 0⟩
      rfl rfl rfl rfl).1⟩

/-! ## Point response lemmas (C4) -/

lemma convert_points_eq_map (pts : List Json)
    (h : ∀ j ∈ pts, j = .null ∨ j.isObj = true) :
    pts.filterMap (fun j =>
      match j with
      | .null => some none
      | .obj kvs => some (some (Point.from_obj (.obj kvs)))
      | _ => none) =
    pts.map (fun j => if j.isNull then none else some (Point.from_obj j)) := by
  induction pts with
  | nil => rfl
  | cons a t ih =>
      have ha := h a (List.mem_cons_self a t)
      have ht : ∀ j ∈ t, j = .null ∨ j.isObj = true :=
        fun j hj => h j (List.mem_cons_of_mem a hj)
      rcases ha with ha | ha
      · subst ha
        simp [ih ht, Json.isNull]
      · rcases a with _ | b | n | ⟨m, sc⟩ | s | items | kvs
        · exact absurd ha (by simp [Json.isObj])
        · exact absurd ha (by simp [Json.isObj])
        · exact absurd ha (by simp [Json.isObj])
        · exact absurd ha (by simp [Json.isObj])
        · exact absurd ha (by simp [Json.isObj])
        · exact absurd ha (by simp [Json.isObj])
        · simp [ih ht, Json.isNull]

lemma filterMap_id_filter_isSome {α : Type} (l : List (Option α)) :
    (l.filter (fun p => p.isSome)).filterMap id = l.filterMap id := by
  induction l with
  | nil => rfl
  | cons a t ih => cases a <;> simp [ih]

lemma count_none_add_valid {α : Type} (l : List (Option α)) :
    (l.filter (fun p => p.isNone)).length + (l.filterMap id).length =
      l.length := by
  induction l with
  | nil => rfl
  | cons a t ih => cases a <;> simp [ih, Nat.add_assoc, Nat.add_left_comm] <;> omega

/-- C4.  PointResponse.from_dict keeps the points list's length and order
with explicit nulls preserved as absence markers (slot i of the result is
the marker exactly when slot i of the wire list is null); the extraction
operations are invariant under removing the absent slots (they skip them
entirely); and the null count plus the valid-point count is the total
slot count, so get_null_count counts exactly the null slots. -/
theorem C4_point_absence :
    (∀ (data : Json) (pts : List Json),
        pyGet data "points" = some (.arr pts) →
        (∀ j ∈ pts, j = .null ∨ j.isObj = true) →
        (PointResponse.from_dict data).points =
          pts.map (fun j => if j.isNull then none
                            else some (Point.from_obj j))
        ∧ (PointResponse.from_dict data).points.length = pts.length
        ∧ (∀ i : Nat, (PointResponse.from_dict data).points[i]? = some none ↔
             pts[i]? = some .null)
        ∧ (PointResponse.from_dict data).get_null_count =
            (pts.filter (fun j => j.isNull)).length)
    ∧ (∀ r : PointResponse,
        r.get_valid_points =
          PointResponse.get_valid_points
            ⟨r.status, r.points.filter (fun p => p.isSome)⟩
        ∧ r.get_values =
          PointResponse.get_values
            ⟨r.status, r.points.filter (fun p => p.isSome)⟩
        ∧ r.get_quality_codes =
          PointResponse.get_quality_codes
            ⟨r.status, r.points.filter (fun p => p.isSome)⟩
        ∧ r.get_timestamps =
          PointResponse.get_timestamps
            ⟨r.status, r.points.filter (fun p => p.isSome)⟩
        ∧ r.get_null_count + r.get_data_count = r.points.length) := by
  constructor
  · intro data pts hp hwf
    have hmap : (PointResponse.from_dict data).points =
        pts.map (fun j => if j.isNull then none
                          else some (Point.from_obj j)) := by
      simp only [PointResponse.from_dict, hp]
      exact convert_points_eq_map pts hwf
    refine ⟨hmap, ?_, ?_, ?_⟩
    · rw [hmap, List.length_map]
    · intro i
      rw [hmap, List.getElem?_map]
      rcases hg : pts[i]? with _ | j
      · simp
      · simp only [Option.map_some']
        constructor
        · intro hj
          rcases j with _ | b | n | ⟨m, sc⟩ | s | items | kvs <;>
            simp [Json.isNull] at hj ⊢
        · intro hj
          rw [Option.some_inj] at hj
          subst hj
          simp [Json.isNull]
    · rw [PointResponse.get_null_count, hmap, List.filter_map,
          List.length_map]
      congr 1
      apply List.filter_congr
      intro j hj
      rcases j with _ | b | n | ⟨m, sc⟩ | s | items | kvs <;>
        simp [Json.isNull]
  · intro r
    have hvp : PointResponse.get_valid_points
        ⟨r.status, r.points.filter (fun p => p.isSome)⟩ =
        r.get_valid_points := by
      simp only [PointResponse.get_valid_points]
      exact filterMap_id_filter_isSome r.points
    refine ⟨hvp.symm, ?_, ?_, ?_, ?_⟩
    · simp only [PointResponse.get_values, hvp]
    · simp only [PointResponse.get_quality_codes, hvp]
    · simp only [PointResponse.get_timestamps, hvp]
    · simp only [PointResponse.get_null_count, PointResponse.get_data_count,
                 PointResponse.get_valid_points]
      exact count_none_add_valid r.points

theorem C4_witness :
    pyGet C4data "points" = some (.arr C4pts) ∧
    (PointResponse.from_dict C4data).points =
      C4pts.map (fun j => if j.isNull then none
                          else some (Point.from_obj j)) ∧
    (PointResponse.from_dict C4data).get_null_count =
      (C4pts.filter (fun j => j.isNull)).length := by
  have hwf : ∀ j ∈ C4pts, j = .null ∨ j.isObj = true := by
    intro j hj
    rcases List.mem_cons.mp hj with h | h
    · subst h
      exact Or.inr rfl
    · rcases List.mem_cons.mp h with h2 | h2
      · exact Or.inl h2
      · exact absurd h2 (List.not_mem_nil j)
  have h := C4_point_absence.1 C4data C4pts rfl hwf
  exact ⟨rfl, h.1, h.2.2.2⟩

/-! ## Filter lemmas (C6, C9) -/

lemma filterMap_nil_of {α β : Type} (l : List α) (f : α → Option β)
    (h : ∀ a ∈ l, f a = none) : l.filterMap f = [] := by
  induction l with
  | nil => rfl
  | cons a t ih =>
      rw [List.filterMap_cons, h a (List.mem_cons_self a t)]
      exact ih (fun x hx => h x (List.mem_cons_of_mem a hx))

lemma length_filter_partition {α : Type} (l : List α) (p : α → Bool) :
    (l.filter p).length + (l.filter (fun a => !p a)).length = l.length := by
  induction l with
  | nil => rfl
  | cons a t ih => rcases hp : p a with _ | _ <;> simp [hp] <;> omega

/-- Membership in a filtered synchronize-station mapping: a station entry
appears exactly when the original mapping holds an entry for it whose
filtered value list is non-empty, and the new entry carries the filtered
values under the old key. -/
lemma mem_sync_filter (stations : List (String × SynchronizeEntry))
    (pred : SynchronizeValue → Bool) (sid : String) (e : SynchronizeEntry) :
    ((sid, e) ∈ stations.filterMap (fun p =>
       let fv := p.2.values.filter pred
       if fv.isEmpty then none else some (p.1, ⟨p.1, p.2.key, fv⟩))) ↔
    ∃ e0, (sid, e0) ∈ stations ∧ (e0.values.filter pred) ≠ [] ∧
       e = ⟨sid, e0.key, e0.values.filter pred⟩ := by
  rw [List.mem_filterMap]
  constructor
  · rintro ⟨⟨a, e0⟩, hmem, hsome⟩
    simp only at hsome
    by_cases hemp : (e0.values.filter pred).isEmpty
    · rw [if_pos hemp] at hsome
      exact absurd hsome (by simp)
    · rw [if_neg hemp] at hsome
      rw [Option.some_inj, Prod.mk.injEq] at hsome
      obtain ⟨ha, he⟩ := hsome
      subst ha
      exact ⟨e0, hmem, by simpa [List.isEmpty_iff] using hemp, he.symm⟩
  · rintro ⟨e0, hmem, hne, he⟩
    refine ⟨(sid, e0), hmem, ?_⟩
    simp only
    rw [if_neg (by simpa [List.isEmpty_iff] using hne)]
    rw [he]

/-- Membership in a quality-filtered time-series list: an entry appears
exactly when the original list holds an entry whose filtered observation
list is non-empty, and the new entry is that entry with the filtered
observations substituted. -/
lemma mem_ts_filter (l : List TimeSeriesEntry)
    (pred : ObservationValue → Bool) (e : TimeSeriesEntry) :
    (e ∈ l.filterMap (fun ts =>
       let fv := ts.values.filter pred
       if fv.isEmpty then none else some { ts with values := fv })) ↔
    ∃ e0, e0 ∈ l ∧ (e0.values.filter pred) ≠ [] ∧
       e = { e0 with values := e0.values.filter pred } := by
  rw [List.mem_filterMap]
  constructor
  · rintro ⟨e0, hmem, hsome⟩
    simp only at hsome
    by_cases hemp : (e0.values.filter pred).isEmpty
    · rw [if_pos hemp] at hsome
      exact absurd hsome (by simp)
    · rw [if_neg hemp] at hsome
      rw [Option.some_inj] at hsome
      exact ⟨e0, hmem, by simpa [List.isEmpty_iff] using hemp, hsome.symm⟩
  · rintro ⟨e0, hmem, hne, he⟩
    refine ⟨e0, hmem, ?_⟩
    simp only
    rw [if_neg (by simpa [List.isEmpty_iff] using hne)]
    rw [he]

/-- C6.  Filtering a response never disturbs the original (the operations
are pure constructions of a new instance whose collection is exactly the
matching subset of the original's), and a criterion matching nothing
yields a response with zero entries rather than an error: stated for the
point, aggregate, synchronize, time-series and interpolate families and
all eleven of their filter operations. -/
theorem C6_filter_returns_copy :
    (∀ (r : PointResponse) (qs : List String),
       (r.filter_by_quality qs).status = r.status
       ∧ (∀ p : Point, some p ∈ (r.filter_by_quality qs).points ↔
            (some p ∈ r.points ∧ pyInStrList p.quality_code qs = true))
       ∧ (none ∉ (r.filter_by_quality qs).points)
       ∧ ((∀ op ∈ r.points, ∀ p : Point, op = some p →
             pyInStrList p.quality_code qs = false) →
           (r.filter_by_quality qs).points = []))
    ∧ (∀ (r : AggregateResponse) (crit : List String),
       ((r.filter_by_key crit).intervals =
          r.intervals.filter (fun i => pyInStrList i.key crit))
       ∧ ((r.filter_by_statistic crit).intervals =
          r.intervals.filter (fun i => pyInStrList i.statistic_type crit))
       ∧ ((r.filter_by_quality crit).intervals =
          r.intervals.filter (fun i => pyInStrList i.quality_code crit))
       ∧ ((r.filter_by_origin crit).intervals =
          r.intervals.filter (fun i => pyInStrList i.origin crit))
       ∧ ((r.filter_by_key crit).intervals.length +
            (r.intervals.filter
              (fun i => !(pyInStrList i.key crit))).length =
            r.intervals.length)
       ∧ ((∀ i ∈ r.intervals, pyInStrList i.key crit = false) →
           (r.filter_by_key crit).intervals = []))
    ∧ (∀ (r : SynchronizeResponse) (qs : List String),
       (∀ sid e, (sid, e) ∈ (r.filter_by_quality qs).stations →
          ∃ e0, (sid, e0) ∈ r.stations ∧ e.key = e0.key ∧
            e.station_id = sid ∧
            e.values = e0.values.filter
              (fun v => pyInStrList v.quality_code qs))
       ∧ ((∀ p ∈ r.stations, ∀ v ∈ p.2.values,
             pyInStrList v.quality_code qs = false) →
           (r.filter_by_quality qs).stations = [])
       ∧ ((∀ p ∈ r.stations, ∀ v ∈ p.2.values,
             pyInStrList v.origin qs = false) →
           (r.filter_by_origin qs).stations = []))
    ∧ (∀ (r : TimeSeriesResponse) (qs : List String),
       ((r.filter_by_quality qs).status = r.status)
       ∧ (∀ e, e ∈ (r.filter_by_quality qs).time_series ↔
            ∃ e0, e0 ∈ r.time_series ∧
              (e0.values.filter
                (fun obs => pyInStrList obs.quality_code qs)) ≠ [] ∧
              e = { e0 with values := e0.values.filter (fun obs => pyInStrList obs.quality_code qs) })
       ∧ (∀ e, e ∈ (r.filter_by_quality qs).time_series → e.values ≠ [])
       ∧ ((∀ e ∈ r.time_series, ∀ obs ∈ e.values,
             pyInStrList obs.quality_code qs = false) →
           (r.filter_by_quality qs).time_series = []))
    ∧ (∀ (r : InterpolateResponse) (crit : List String),
       ((r.filter_by_key crit).entries =
          r.entries.filter (fun e => pyInStrList e.key crit))
       ∧ ((r.filter_by_quality crit).entries =
          r.entries.filter (fun e => pyInStrList e.quality_code crit))
       ∧ ((r.filter_by_origin crit).entries =
          r.entries.filter (fun e => pyInStrList e.origin crit))
       ∧ ((r.filter_by_key crit).entries.length +
            (r.entries.filter
              (fun e => !(pyInStrList e.key crit))).length =
            r.entries.length)
       ∧ ((∀ e ∈ r.entries, pyInStrList e.key crit = false) →
           (r.filter_by_key crit).entries = [])
       ∧ ((∀ e ∈ r.entries, pyInStrList e.quality_code crit = false) →
           (r.filter_by_quality crit).entries = [])
       ∧ ((∀ e ∈ r.entries, pyInStrList e.origin crit = false) →
           (r.filter_by_origin crit).entries = [])) := by
  refine ⟨fun r qs => ⟨rfl, fun p => ?_, ?_, fun hno => ?_⟩,
          fun r crit => ⟨rfl, rfl, rfl, rfl, length_filter_partition _ _,
            fun hno => ?_⟩,
          fun r qs => ⟨fun sid e hmem => ?_, fun hno => ?_, fun hno => ?_⟩,
          fun r qs => ⟨rfl, fun e => mem_ts_filter r.time_series _ e,
            fun e he => ?_, fun hno => ?_⟩,
          fun r crit => ⟨rfl, rfl, rfl, length_filter_partition _ _,
            fun hno => ?_, fun hno => ?_, fun hno => ?_⟩⟩
  · rw [PointResponse.filter_by_quality]
    simp only [List.mem_filterMap]
    constructor
    · rintro ⟨op, hop, hsome⟩
      rcases op with _ | q
      · exact absurd hsome (by simp)
      · simp only at hsome
        by_cases hq : pyInStrList q.quality_code qs = true
        · rw [if_pos hq, Option.some_inj, Option.some_inj] at hsome
          subst hsome
          exact ⟨hop, hq⟩
        · rw [if_neg hq] at hsome
          exact absurd hsome (by simp)
    · rintro ⟨hmem, hq⟩
      refine ⟨some p, hmem, ?_⟩
      simp only
      rw [if_pos hq]
  · rw [PointResponse.filter_by_quality]
    simp only [List.mem_filterMap]
    rintro ⟨op, hop, hsome⟩
    rcases op with _ | q
    · exact absurd hsome (by simp)
    · simp only at hsome
      by_cases hq : pyInStrList q.quality_code qs = true
      · rw [if_pos hq] at hsome
        exact absurd hsome (by simp)
      · rw [if_neg hq] at hsome
        exact absurd hsome (by simp)
  · rw [PointResponse.filter_by_quality]
    apply filterMap_nil_of
    intro op hop
    rcases op with _ | q
    · rfl
    · simp only
      rw [if_neg (by simp [hno (some q) hop q rfl])]
  · rw [AggregateResponse.filter_by_key]
    simp only
    apply List.eq_nil_of_length_eq_zero
    rw [List.length_eq_zero]
    apply List.filter_eq_nil_iff.mpr
    intro i hi
    simp [hno i hi]
  · exact (mem_sync_filter r.stations _ sid e).mp hmem |>.elim
      (fun e0 ⟨hm, hne, he⟩ => ⟨e0, hm, by rw [he], by rw [he], by rw [he]⟩)
  · rw [SynchronizeResponse.filter_by_quality]
    apply filterMap_nil_of
    intro p hp
    simp only
    rw [if_pos]
    rw [List.isEmpty_iff]
    apply List.filter_eq_nil_iff.mpr
    intro v hv
    simp [hno p hp v hv]
  · rw [SynchronizeResponse.filter_by_origin]
    apply filterMap_nil_of
    intro p hp
    simp only
    rw [if_pos]
    rw [List.isEmpty_iff]
    apply List.filter_eq_nil_iff.mpr
    intro v hv
    simp [hno p hp v hv]
  · obtain ⟨e0, _, hne, he⟩ :=
      (mem_ts_filter r.time_series
        (fun obs => pyInStrList obs.quality_code qs) e).mp he
    rw [he]
    simpa using hne
  · rw [TimeSeriesResponse.filter_by_quality]
    apply filterMap_nil_of
    intro ts hts
    simp only
    rw [if_pos]
    rw [List.isEmpty_iff]
    apply List.filter_eq_nil_iff.mpr
    intro obs hobs
    simp [hno ts hts obs hobs]
  · rw [InterpolateResponse.filter_by_key]
    simp only
    apply List.eq_nil_of_length_eq_zero
    rw [List.length_eq_zero]
    apply List.filter_eq_nil_iff.mpr
    intro e he
    simp [hno e he]
  · rw [InterpolateResponse.filter_by_quality]
    simp only
    apply List.eq_nil_of_length_eq_zero
    rw [List.length_eq_zero]
    apply List.filter_eq_nil_iff.mpr
    intro e he
    simp [hno e he]
  · rw [InterpolateResponse.filter_by_origin]
    simp only
    apply List.eq_nil_of_length_eq_zero
    rw [List.length_eq_zero]
    apply List.filter_eq_nil_iff.mpr
    intro e he
    simp [hno e he]

theorem C6_witness :
    (PointResponse.filter_by_quality ⟨none, [some C6point, none]⟩
        ["Z"]).points = [] ∧
    (AggregateResponse.filter_by_key ⟨[C6iv]⟩ ["Z"]).intervals = [] ∧
    (SynchronizeResponse.filter_by_quality
        ⟨[("S1", ⟨"S1", .str "S1", [C6sv]⟩)]⟩ ["Z"]).stations = [] ∧
    (TimeSeriesResponse.filter_by_quality ⟨none, [C6ts]⟩
        ["Z"]).time_series = [] ∧
    (InterpolateResponse.filter_by_key ⟨[C6ie]⟩ ["Z"]).entries = [] := by
  refine ⟨(C6_filter_returns_copy.1 ⟨none, [some C6point, none]⟩ ["Z"]).2.2.2
      ?_, (C6_filter_returns_copy.2.1 ⟨[C6iv]⟩ ["Z"]).2.2.2.2.2 ?_,
      (C6_filter_returns_copy.2.2.1 ⟨[("S1", ⟨"S1", .str "S1", [C6sv]⟩)]⟩
        ["Z"]).2.1 ?_,
      (C6_filter_returns_copy.2.2.2.1 ⟨none, [C6ts]⟩ ["Z"]).2.2.2 ?_,
      (C6_filter_returns_copy.2.2.2.2 ⟨[C6ie]⟩ ["Z"]).2.2.2.2.1 ?_⟩
  · intro op hop p hp
    rcases List.mem_cons.mp hop with h | h
    · rw [h] at hp
      rw [Option.some_inj] at hp
      rw [← hp]
      rfl
    · rcases List.mem_cons.mp h with h2 | h2
      · rw [h2] at hp
        exact absurd hp (by simp)
      · exact absurd h2 (List.not_mem_nil op)
  · intro i hi
    rcases List.mem_cons.mp hi with h | h
    · rw [h]
      rfl
    · exact absurd h (List.not_mem_nil i)
  · intro p hp v hv
    rcases List.mem_cons.mp hp with h | h
    · rw [h] at hv
      simp only at hv
      rcases List.mem_cons.mp hv with h2 | h2
      · rw [h2]
        rfl
      · exact absurd h2 (List.not_mem_nil v)
    · exact absurd h (List.not_mem_nil p)
  · intro e he obs hobs
    rcases List.mem_cons.mp he with h | h
    · rw [h] at hobs
      rcases List.mem_cons.mp hobs with h2 | h2
      · rw [h2]
        rfl
      · exact absurd h2 (List.not_mem_nil obs)
    · exact absurd h (List.not_mem_nil e)
  · intro e he
    rcases List.mem_cons.mp he with h | h
    · rw [h]
      rfl
    · exact absurd h (List.not_mem_nil e)

/-- C9.  A station appears in a quality- or origin-filtered synchronize
response exactly when at least one of its values passes the criterion;
every station kept carries a non-empty filtered value list; and the
filtered station-id set is contained in the original one, so filtering
shrinks the set of stations, not only per-station value lists. -/
theorem C9_synchronize_filter_station_membership :
    ∀ (r : SynchronizeResponse) (qs : List String),
    ((∀ sid, (∃ e, (sid, e) ∈ (r.filter_by_quality qs).stations) ↔
        (∃ e0, (sid, e0) ∈ r.stations ∧
           ∃ v ∈ e0.values, pyInStrList v.quality_code qs = true))
     ∧ (∀ sid e, (sid, e) ∈ (r.filter_by_quality qs).stations →
          e.values ≠ [])
     ∧ ((r.filter_by_quality qs).get_stations ⊆ r.get_stations))
    ∧ ((∀ sid, (∃ e, (sid, e) ∈ (r.filter_by_origin qs).stations) ↔
        (∃ e0, (sid, e0) ∈ r.stations ∧
           ∃ v ∈ e0.values, pyInStrList v.origin qs = true))
     ∧ (∀ sid e, (sid, e) ∈ (r.filter_by_origin qs).stations →
          e.values ≠ [])
     ∧ ((r.filter_by_origin qs).get_stations ⊆ r.get_stations)) := by
  intro r qs
  have main : ∀ (pred : SynchronizeValue → Bool),
      (∀ sid, (∃ e, (sid, e) ∈ syncFilter r.stations pred) ↔
        (∃ e0, (sid, e0) ∈ r.stations ∧ ∃ v ∈ e0.values, pred v = true))
      ∧ (∀ sid e, (sid, e) ∈ syncFilter r.stations pred →
          e.values ≠ [])
      ∧ ((syncFilter r.stations pred).map Prod.fst ⊆
          r.stations.map Prod.fst) := by
    intro pred
    refine ⟨fun sid => ?_, fun sid e hmem => ?_, ?_⟩
    · constructor
      · rintro ⟨e, hmem⟩
        obtain ⟨e0, hm, hne, _⟩ := (mem_sync_filter r.stations pred sid e).mp
          hmem
        rcases hx : e0.values.filter pred with _ | ⟨v, rest⟩
        · exact absurd hx hne
        · have hv : v ∈ e0.values.filter pred := by
            rw [hx]; exact List.mem_cons_self v rest
          obtain ⟨hvm, hvp⟩ := List.mem_filter.mp hv
          exact ⟨e0, hm, v, hvm, hvp⟩
      · rintro ⟨e0, hm, v, hvm, hvp⟩
        refine ⟨⟨sid, e0.key, e0.values.filter pred⟩, ?_⟩
        apply (mem_sync_filter r.stations pred sid _).mpr
        refine ⟨e0, hm, ?_, rfl⟩
        intro hnil
        have : v ∈ e0.values.filter pred := List.mem_filter.mpr ⟨hvm, hvp⟩
        rw [hnil] at this
        exact List.not_mem_nil v this
    · obtain ⟨e0, _, hne, he⟩ := (mem_sync_filter r.stations pred sid e).mp
        hmem
      rw [he]
      exact hne
    · intro s hs
      obtain ⟨⟨sid, e⟩, hmem, hfst⟩ := List.mem_map.mp hs
      obtain ⟨e0, hm, _, _⟩ := (mem_sync_filter r.stations pred sid e).mp hmem
      apply List.mem_map.mpr
      exact ⟨(sid, e0), hm, hfst⟩
  exact ⟨main (fun v => pyInStrList v.quality_code qs),
         main (fun v => pyInStrList v.origin qs)⟩

/-! ## Generic mapper lemmas (C5) -/

lemma buildItems_override (ov : Overrides) (d : DC) (f : Json → PyVal)
    (hov : ov d.name = some f) (xs : List Json) :
    buildItems ov d xs = .ok (xs.map f) := by
  induction xs with
  | nil => unfold buildItems; rfl
  | cons x rest ih =>
      unfold buildItems createInstance
      rw [hov, ih]
      rfl

/-- C5.  The generic mapper resolves each field through its declared
wire-key alias falling back to the field name; an absent (or null)
resolved value gives an empty list for list-typed fields and the explicit
no-value marker otherwise; primitives are copied through unchanged;
nested record types and lists of record types are built recursively,
preferring the type's own from_dict override when one exists; and a
target that is not a dataclass descriptor is rejected with the
not-a-dataclass type error. -/
theorem C5_dataclass_from_dict_laws :
    (∀ (ov : Overrides) (data : Json),
        dataclass_from_dict ov .prim data = .error "is not a dataclass"
        ∧ ∀ t, dataclass_from_dict ov (.listOf t) data =
            .error "is not a dataclass")
    ∧ (∀ (ov : Overrides) (name : String) (flds : FieldList) (data : Json),
        dataclass_from_dict ov (.dclass (.mk name flds)) data =
          (buildFields ov flds data).map (PyVal.inst name))
    ∧ (∀ (ov : Overrides) (fn : String) (jk : Option String)
         (ft : FieldType) (rest : FieldList) (kvs : List (String × Json)),
        buildFields ov (.cons fn jk ft rest) (.obj kvs) =
          (buildFieldValue ov ft (pyGet (.obj kvs) (jk.getD fn))).bind
            (fun pv => (buildFields ov rest (.obj kvs)).map
              (fun others => (fn, pv) :: others)))
    ∧ (∀ (ov : Overrides) (t : FieldType),
        buildFieldValue ov (.listOf t) none = .ok (.vlist []))
    ∧ (∀ (ov : Overrides), buildFieldValue ov .prim none = .ok .pnone
        ∧ ∀ d, buildFieldValue ov (.dclass d) none = .ok .pnone)
    ∧ (∀ (ov : Overrides) (v : Json),
        buildFieldValue ov .prim (some v) = .ok (.json v))
    ∧ (∀ (ov : Overrides) (d : DC) (v : Json) (f : Json → PyVal),
        ov d.name = some f →
        buildFieldValue ov (.dclass d) (some v) = .ok (f v))
    ∧ (∀ (ov : Overrides) (d : DC) (v : Json),
        ov d.name = none →
        buildFieldValue ov (.dclass d) (some v) = buildDC ov d v)
    ∧ (∀ (ov : Overrides) (xs : List Json),
        buildFieldValue ov (.listOf .prim) (some (.arr xs)) =
          .ok (.vlist (xs.map .json)))
    ∧ (∀ (ov : Overrides) (d : DC) (xs : List Json) (f : Json → PyVal),
        ov d.name = some f →
        buildFieldValue ov (.listOf (.dclass d)) (some (.arr xs)) =
          .ok (.vlist (xs.map f))) := by
  refine ⟨fun ov data => ⟨rfl, fun t => rfl⟩,
          fun ov name flds data => ?_,
          fun ov fn jk ft rest kvs => ?_,
          fun ov t => by unfold buildFieldValue; rfl,
          fun ov => ⟨by unfold buildFieldValue; rfl,
                     fun d => by unfold buildFieldValue; rfl⟩,
          fun ov v => by unfold buildFieldValue; rfl,
          fun ov d v f hov => ?_,
          fun ov d v hov => ?_,
          fun ov xs => by unfold buildFieldValue; rfl,
          fun ov d xs f hov => ?_⟩
  · show buildDC ov (.mk name flds) data = _
    unfold buildDC
    cases h : buildFields ov flds data <;> simp [h, Except.map]
  · conv_lhs => unfold buildFields
    show ((rawGet (.obj kvs) (jk.getD fn)).bind fun v =>
      (buildFieldValue ov ft v).bind fun pv =>
        (buildFields ov rest (.obj kvs)).bind fun others =>
          pure ((fn, pv) :: others)) = _
    rw [show rawGet (.obj kvs) (jk.getD fn) =
          .ok (pyGet (.obj kvs) (jk.getD fn)) from rfl]
    show ((buildFieldValue ov ft (pyGet (.obj kvs) (jk.getD fn))).bind
      fun pv => (buildFields ov rest (.obj kvs)).bind fun others =>
        pure ((fn, pv) :: others)) = _
    cases buildFieldValue ov ft (pyGet (.obj kvs) (jk.getD fn)) <;> rfl
  · unfold buildFieldValue createInstance
    rw [hov]
    rfl
  · unfold buildFieldValue createInstance
    rw [hov]
  · unfold buildFieldValue
    show (do
      let items ← buildItems ov d xs
      pure (PyVal.vlist items) : Except String PyVal) = _
    rw [buildItems_override ov d f hov xs]
    rfl

theorem C5_witness :
    C5ov (DC.mk "Timespan" .nil).name = some (fun j => .json j) ∧
    buildFieldValue C5ov (.dclass (.mk "Timespan" .nil)) (some (.obj [])) =
      .ok (.json (.obj [])) ∧
    C5ov (DC.mk "Point" .nil).name = none ∧
    buildFieldValue C5ov (.dclass (.mk "Point" .nil)) (some (.obj [])) =
      buildDC C5ov (.mk "Point" .nil) (.obj []) ∧
    buildFieldValue C5ov (.listOf (.dclass (.mk "Timespan" .nil)))
        (some (.arr [.obj []])) =
      .ok (.vlist [.json (.obj [])]) := by
  refine ⟨rfl, ?_, rfl, ?_, ?_⟩
  · exact C5_dataclass_from_dict_laws.2.2.2.2.2.2.1 C5ov
      (.mk "Timespan" .nil) (.obj []) _ rfl
  · exact C5_dataclass_from_dict_laws.2.2.2.2.2.2.2.1 C5ov
      (.mk "Point" .nil) (.obj []) rfl
  · exact C5_dataclass_from_dict_laws.2.2.2.2.2.2.2.2.2 C5ov
      (.mk "Timespan" .nil) [.obj []] _ rfl

lemma mem_of_alookup {α : Type} {l : List (String × α)} {k : String}
    {v : α} (h : alookup l k = some v) : (k, v) ∈ l := by
  induction l with
  | nil => exact absurd h (by simp [alookup])
  | cons p rest ih =>
      rcases p with ⟨k', v'⟩
      by_cases hk : k' = k
      · subst hk
        simp [alookup] at h
        subst h
        exact List.mem_cons_self _ _
      · simp only [alookup, if_neg hk] at h
        exact List.mem_cons_of_mem _ (ih h)

lemma alookup_none_of_not_mem {α : Type} (l : List (String × α))
    (k : String) (h : k ∉ l.map Prod.fst) : alookup l k = none := by
  induction l with
  | nil => rfl
  | cons p rest ih =>
      rw [List.map_cons, List.mem_cons] at h
      push_neg at h
      simp only [alookup]
      rw [if_neg (Ne.symm h.1)]
      exact ih h.2

lemma alookup_dictInsert_self {α : Type} (l : List (String × α))
    (k : String) (v : α) : alookup (dictInsert l k v) k = some v := by
  induction l with
  | nil => simp [dictInsert, alookup]
  | cons p rest ih =>
      rcases p with ⟨k', v'⟩
      by_cases hk : k' = k
      · simp [dictInsert, if_pos hk, alookup]
      · simp only [dictInsert, if_neg hk, alookup]
        exact ih

lemma alookup_dictInsert_ne {α : Type} (l : List (String × α))
    (k : String) (v : α) (k' : String) (h : k ≠ k') :
    alookup (dictInsert l k v) k' = alookup l k' := by
  induction l with
  | nil => simp [dictInsert, alookup, h]
  | cons p rest ih =>
      rcases p with ⟨a, b⟩
      by_cases ha : a = k
      · simp only [dictInsert, if_pos ha, alookup]
        rw [if_neg h, ha, if_neg h]
      · simp only [dictInsert, if_neg ha, alookup]
        by_cases ha' : a = k'
        · rw [if_pos ha', if_pos ha']
        · rw [if_neg ha', if_neg ha']
          exact ih

lemma dictInsert_append {α : Type} (l : List (String × α)) (k : String)
    (v : α) (h : alookup l k = none) : dictInsert l k v = l ++ [(k, v)] := by
  induction l with
  | nil => rfl
  | cons p rest ih =>
      rcases p with ⟨a, b⟩
      by_cases ha : a = k
      · simp only [alookup, if_pos ha] at h
        exact absurd h (by simp)
      · simp only [alookup, if_neg ha] at h
        rw [dictInsert, if_neg ha, List.cons_append, ih h]

lemma dictInsert_ne_nil {α : Type} (l : List (String × α)) (k : String)
    (v : α) : dictInsert l k v ≠ [] := by
  cases l with
  | nil => simp [dictInsert]
  | cons p rest =>
      rw [dictInsert]
      split <;> simp

lemma keys_dictInsert_subset {α : Type} (l : List (String × α))
    (k : String) (v : α) :
    (dictInsert l k v).map Prod.fst ⊆ l.map Prod.fst ++ [k] := by
  induction l with
  | nil => simp [dictInsert]
  | cons p rest ih =>
      rcases p with ⟨a, b⟩
      by_cases ha : a = k
      · rw [dictInsert, if_pos ha]
        intro x hx
        rcases List.mem_cons.mp hx with h | h
        · simp [h]
        · exact List.mem_append_left _ (List.mem_cons_of_mem _ h)
      · rw [dictInsert, if_neg ha]
        intro x hx
        rcases List.mem_cons.mp hx with h | h
        · simp [h]
        · rcases List.mem_append.mp (ih h) with h2 | h2
          · exact List.mem_append_left _ (List.mem_cons_of_mem _ h2)
          · exact List.mem_append_right _ h2

lemma nodup_keys_dictInsert {α : Type} (l : List (String × α))
    (k : String) (v : α) (h : (l.map Prod.fst).Nodup) :
    ((dictInsert l k v).map Prod.fst).Nodup := by
  induction l with
  | nil => simp [dictInsert]
  | cons p rest ih =>
      rcases p with ⟨a, b⟩
      rw [List.map_cons, List.nodup_cons] at h
      by_cases ha : a = k
      · rw [dictInsert, if_pos ha, List.map_cons, List.nodup_cons]
        exact ⟨by rw [← ha]; exact h.1, h.2⟩
      · rw [dictInsert, if_neg ha, List.map_cons, List.nodup_cons]
        refine ⟨fun hmem => ?_, ih h.2⟩
        rcases List.mem_append.mp (keys_dictInsert_subset rest k v hmem)
          with h2 | h2
        · exact h.1 h2
        · simp at h2
          exact ha h2

lemma processBlock_lookup_notmem (kvs : List (String × Json))
    (acc : List (String × List (String × Json))) (t sid : String)
    (h : sid ∉ kvs.map Prod.fst) :
    alookup (processBlock acc t kvs) sid = alookup acc sid := by
  induction kvs generalizing acc with
  | nil => rfl
  | cons p rest ih =>
      rcases p with ⟨s0, e0⟩
      rw [List.map_cons, List.mem_cons] at h
      push_neg at h
      rw [processBlock, ih _ h.2]
      by_cases he : e0.isObj = true
      · rw [if_pos he, addEntry, alookup_dictInsert_ne _ _ _ _ (Ne.symm h.1)]
      · rw [if_neg he]

lemma blockRec_cons_self (s0 : String) (e0 : Json)
    (rest : List (String × Json)) (t : String) :
    blockRec ((s0, e0) :: rest) s0 t =
      (if e0.isObj = true then some (t, e0) else none) := by
  simp [blockRec, alookup]

lemma blockRec_cons_ne (s0 sid : String) (e0 : Json)
    (rest : List (String × Json)) (t : String) (h : s0 ≠ sid) :
    blockRec ((s0, e0) :: rest) sid t = blockRec rest sid t := by
  simp only [blockRec, alookup]
  rw [if_neg h]

lemma processBlock_lookup (kvs : List (String × Json))
    (acc : List (String × List (String × Json))) (t sid : String)
    (hk : (kvs.map Prod.fst).Nodup)
    (hacc : ∀ l, alookup acc sid = some l → t ∉ l.map Prod.fst) :
    alookup (processBlock acc t kvs) sid =
      match blockRec kvs sid t with
      | none => alookup acc sid
      | some r => some ((alookup acc sid).getD [] ++ [r]) := by
  induction kvs generalizing acc with
  | nil => rfl
  | cons p rest ih =>
      rcases p with ⟨s0, e0⟩
      rw [List.map_cons, List.nodup_cons] at hk
      by_cases hs : s0 = sid
      · subst hs
        rw [processBlock]
        have hnot : s0 ∉ rest.map Prod.fst := hk.1
        rw [blockRec_cons_self]
        by_cases he : e0.isObj = true
        · rw [if_pos he, if_pos he]
          rw [processBlock_lookup_notmem rest _ t s0 hnot]
          rw [addEntry, alookup_dictInsert_self]
          have hin : dictInsert ((alookup acc s0).getD []) t e0 =
              (alookup acc s0).getD [] ++ [(t, e0)] := by
            apply dictInsert_append
            apply alookup_none_of_not_mem
            rcases hl : alookup acc s0 with _ | l
            · simp
            · simpa using hacc l hl
          rw [hin]
        · rw [if_neg he, if_neg he]
          rw [processBlock_lookup_notmem rest acc t s0 hnot]
      · rw [processBlock]
        have hacc2 : ∀ l, alookup (if e0.isObj = true
            then addEntry acc s0 t e0 else acc) sid = some l →
            t ∉ l.map Prod.fst := by
          intro l hl
          by_cases he : e0.isObj = true
          · rw [if_pos he, addEntry,
                alookup_dictInsert_ne _ _ _ _ hs] at hl
            exact hacc l hl
          · rw [if_neg he] at hl
            exact hacc l hl
        rw [ih _ hk.2 hacc2]
        have hsame : alookup (if e0.isObj = true
            then addEntry acc s0 t e0 else acc) sid = alookup acc sid := by
          by_cases he : e0.isObj = true
          · rw [if_pos he, addEntry, alookup_dictInsert_ne _ _ _ _ hs]
          · rw [if_neg he]
        rw [hsame, blockRec_cons_ne s0 sid e0 rest t hs]

lemma processBlock_inv (kvs : List (String × Json))
    (acc : List (String × List (String × Json))) (t : String)
    (seen : List String) (ht : t ∈ seen)
    (hIA : ∀ sid l, alookup acc sid = some l →
      l ≠ [] ∧ l.map Prod.fst ⊆ seen) :
    ∀ sid l, alookup (processBlock acc t kvs) sid = some l →
      l ≠ [] ∧ l.map Prod.fst ⊆ seen := by
  induction kvs generalizing acc with
  | nil => exact hIA
  | cons p rest ih =>
      rcases p with ⟨s0, e0⟩
      rw [processBlock]
      apply ih
      intro sid l hl
      by_cases he : e0.isObj = true
      · rw [if_pos he] at hl
        by_cases hs : s0 = sid
        · subst hs
          rw [addEntry, alookup_dictInsert_self, Option.some_inj] at hl
          subst hl
          refine ⟨dictInsert_ne_nil _ _ _, fun x hx => ?_⟩
          rcases List.mem_append.mp
            (keys_dictInsert_subset _ t e0 hx) with h2 | h2
          · rcases hl0 : alookup acc s0 with _ | l0
            · rw [hl0] at h2
              simp at h2
            · rw [hl0] at h2
              exact (hIA s0 l0 hl0).2 h2
          · simp at h2
            subst h2
            exact ht
        · rw [addEntry, alookup_dictInsert_ne _ _ _ _ hs] at hl
          exact hIA sid l hl
      · rw [if_neg he] at hl
        exact hIA sid l hl

lemma buildStationData_lookup (tblocks : List (String × Json))
    (acc : List (String × List (String × Json))) (seen : List String)
    (sid : String)
    (hIA : ∀ sid' l, alookup acc sid' = some l →
      l ≠ [] ∧ l.map Prod.fst ⊆ seen)
    (hts : (tblocks.map Prod.fst).Nodup)
    (hdisj : ∀ t ∈ tblocks.map Prod.fst, t ∉ seen)
    (hbn : blocksNodup tblocks) :
    alookup (buildStationData acc tblocks) sid =
      match alookup acc sid, recsOf sid tblocks with
      | none, [] => none
      | none, rs => some rs
      | some l, rs => some (l ++ rs) := by
  induction tblocks generalizing acc seen with
  | nil =>
      show alookup acc sid = _
      rcases halo : alookup acc sid with _ | l <;> simp [recsOf, halo]
  | cons p rest ih =>
      rcases p with ⟨t, b⟩
      rw [List.map_cons, List.nodup_cons] at hts
      have hdisjrest : ∀ t' ∈ rest.map Prod.fst, t' ∉ seen :=
        fun t' ht' => hdisj t' (List.mem_cons_of_mem _ ht')
      have hbnrest : blocksNodup rest :=
        fun p hp => hbn p (List.mem_cons_of_mem _ hp)
      rcases b with _ | bb | bn | ⟨bm, bsc⟩ | bs | bitems | kvs
      case obj =>
        rw [buildStationData]
        have hknodup : (kvs.map Prod.fst).Nodup :=
          hbn (t, .obj kvs) (List.mem_cons_self _ _) kvs rfl
        have hacc1 : ∀ l, alookup acc sid = some l → t ∉ l.map Prod.fst := by
          intro l hl
          intro hmem
          exact hdisj t (List.mem_cons_self _ _) ((hIA sid l hl).2 hmem)
        have hIA2 : ∀ sid' l,
            alookup (processBlock acc t kvs) sid' = some l →
            l ≠ [] ∧ l.map Prod.fst ⊆ seen ++ [t] := by
          apply processBlock_inv kvs acc t (seen ++ [t])
            (List.mem_append_right _ (List.mem_cons_self _ _))
          intro sid' l hl
          exact ⟨(hIA sid' l hl).1,
            fun x hx => List.mem_append_left _ ((hIA sid' l hl).2 hx)⟩
        have hdisj2 : ∀ t' ∈ rest.map Prod.fst, t' ∉ seen ++ [t] := by
          intro t' ht' hmem
          rcases List.mem_append.mp hmem with h2 | h2
          · exact hdisjrest t' ht' h2
          · simp at h2
            subst h2
            exact hts.1 ht'
        rw [ih (processBlock acc t kvs) (seen ++ [t]) hIA2 hts.2 hdisj2
          hbnrest]
        rw [processBlock_lookup kvs acc t sid hknodup hacc1]
        show _ = (match alookup acc sid,
          ((match blockRec kvs sid t with
            | some r => [r]
            | none => []) ++ recsOf sid rest) with
          | none, [] => none
          | none, rs => some rs
          | some l, rs => some (l ++ rs))
        rcases hbr : blockRec kvs sid t with _ | r
        · simp only [List.nil_append]
        · rcases halo : alookup acc sid with _ | l
          · simp
          · simp [List.append_assoc]
      all_goals
        exact (ih acc seen hIA hts.2 hdisjrest hbnrest).trans rfl

lemma keys_nodup_processBlock (kvs : List (String × Json))
    (acc : List (String × List (String × Json))) (t : String)
    (h : (acc.map Prod.fst).Nodup) :
    ((processBlock acc t kvs).map Prod.fst).Nodup := by
  induction kvs generalizing acc with
  | nil => exact h
  | cons p rest ih =>
      rw [processBlock]
      apply ih
      by_cases he : p.2.isObj = true
      · rw [if_pos he]
        exact nodup_keys_dictInsert _ _ _ h
      · rw [if_neg he]
        exact h

lemma keys_nodup_build (tblocks : List (String × Json))
    (acc : List (String × List (String × Json)))
    (h : (acc.map Prod.fst).Nodup) :
    ((buildStationData acc tblocks).map Prod.fst).Nodup := by
  induction tblocks generalizing acc with
  | nil => exact h
  | cons p rest ih =>
      rcases p with ⟨t, b⟩
      rcases b with _ | bb | bn | ⟨bm, bsc⟩ | bs | bitems | kvs
      case obj =>
        exact ih (processBlock acc t kvs) (keys_nodup_processBlock kvs acc t h)
      all_goals exact ih acc h

lemma entryLoop_values (sid : String) (ds : List Json)
    (h : ∀ d ∈ ds, d.isObj = true) (k0 : Option Json) :
    (entryLoop sid k0 ds).2 = ds.map SynchronizeValue.from_dict := by
  induction ds generalizing k0 with
  | nil => rfl
  | cons d rest ih =>
      have hd := h d (List.mem_cons_self d rest)
      have ht : ∀ x ∈ rest, x.isObj = true :=
        fun x hx => h x (List.mem_cons_of_mem d hx)
      rw [entryLoop.eq_def]
      simp only
      rw [if_pos hd]
      simp only [List.map_cons]
      rw [ih ht]

lemma entryLoop_key_some (sid : String) (ds : List Json) (k : Json) :
    (entryLoop sid (some k) ds).1 = some k := by
  induction ds with
  | nil => rfl
  | cons d rest ih =>
      rw [entryLoop.eq_def]
      simp only
      by_cases hd : d.isObj = true
      · rw [if_pos hd]
        exact ih
      · rw [if_neg hd]
        exact ih

lemma entryLoop_key_head (sid : String) (d : Json) (rest : List Json)
    (hobj : d.isObj = true) (hkey : keyFieldOK d = true) :
    (entryLoop sid none (d :: rest)).1 =
      some ((d.objLookup "key").getD (.str sid)) := by
  rw [entryLoop.eq_def]
  simp only
  rw [if_pos hobj]
  unfold keyFieldOK at hkey
  rcases hl : d.objLookup "key" with _ | v
  · rw [hl] at hkey
    exact entryLoop_key_some sid rest (.str sid)
  · rw [hl] at hkey
    rcases v with _ | b | n | ⟨m, sc⟩ | s | items | kvs <;> simp at hkey
    exact entryLoop_key_some sid rest (.str s)

lemma from_station_data_char (sid : String)
    (recs : List (String × Json))
    (hobj : ∀ r ∈ recs, r.2.isObj = true)
    (hkey : ∀ r ∈ recs, keyFieldOK r.2 = true) :
    (SynchronizeEntry.from_station_data sid recs).station_id = sid
    ∧ (SynchronizeEntry.from_station_data sid recs).values =
        (recs.map Prod.snd).map SynchronizeValue.from_dict
    ∧ (SynchronizeEntry.from_station_data sid recs).key =
        (match recs.head? with
         | some r => (r.2.objLookup "key").getD (.str sid)
         | none => .str sid) := by
  have hobj2 : ∀ d ∈ recs.map Prod.snd, d.isObj = true := by
    intro d hd
    obtain ⟨r, hr, hrd⟩ := List.mem_map.mp hd
    rw [← hrd]
    exact hobj r hr
  refine ⟨rfl, ?_, ?_⟩
  · show (entryLoop sid none (recs.map Prod.snd)).2 = _
    exact entryLoop_values sid _ hobj2 none
  · show (match (entryLoop sid none (recs.map Prod.snd)).1 with
          | some k => if pyTruthy k then k else .str sid
          | none => .str sid) = _
    rcases recs with _ | ⟨r, rest⟩
    · rfl
    · rw [List.map_cons]
      rw [entryLoop_key_head sid r.2 (rest.map Prod.snd)
        (hobj r (List.mem_cons_self r rest))
        (hkey r (List.mem_cons_self r rest))]
      simp only [List.head?_cons]
      have hk := hkey r (List.mem_cons_self r rest)
      unfold keyFieldOK at hk
      rcases hl : r.2.objLookup "key" with _ | v
      · show (if pyTruthy ((none : Option Json).getD (.str sid)) then _
              else _) = _
        split <;> rfl
      · rw [hl] at hk
        rcases v with _ | b | n | ⟨m, sc⟩ | s | items | kvs <;> simp at hk
        show (if pyTruthy ((some (Json.str s)).getD (.str sid)) then
                (some (Json.str s)).getD (.str sid)
              else Json.str sid) = _
        have hcond : pyTruthy ((some (Json.str s)).getD (.str sid)) =
            true := by
          simp [pyTruthy, hk]
        rw [if_pos hcond]

lemma recsOf_mem_obj (sid : String) (data : List (String × Json)) :
    ∀ r ∈ recsOf sid data, r.2.isObj = true := by
  induction data with
  | nil => intro r hr; exact absurd hr (List.not_mem_nil r)
  | cons p rest ih =>
      rcases p with ⟨t, b⟩
      intro r hr
      rcases b with _ | bb | bn | ⟨bm, bsc⟩ | bs | bitems | kvs
      case obj =>
        rw [recsOf] at hr
        rcases List.mem_append.mp hr with h | h
        · rcases hbr : blockRec kvs sid t with _ | r0
          · rw [hbr] at h
            exact absurd h (List.not_mem_nil r)
          · rw [hbr] at h
            simp only [List.mem_singleton] at h
            subst h
            unfold blockRec at hbr
            rcases hal : alookup kvs sid with _ | e
            · rw [hal] at hbr
              exact absurd hbr (by simp)
            · rw [hal] at hbr
              have hbr2 : (if e.isObj = true then some (t, e) else none) =
                  some r := hbr
              by_cases he : e.isObj = true
              · rw [if_pos he, Option.some_inj] at hbr2
                rw [← hbr2]
                exact he
              · rw [if_neg he] at hbr2
                exact absurd hbr2 (by simp)
        · exact ih r h
      all_goals exact ih r hr

lemma recsOf_mem_keyOK (sid : String) (data : List (String × Json))
    (hw : keyWF data = true) :
    ∀ r ∈ recsOf sid data, keyFieldOK r.2 = true := by
  induction data with
  | nil => intro r hr; exact absurd hr (List.not_mem_nil r)
  | cons p rest ih =>
      rcases p with ⟨t, b⟩
      rw [keyWF, List.all_cons, Bool.and_eq_true] at hw
      have hwrest : keyWF rest = true := hw.2
      intro r hr
      rcases b with _ | bb | bn | ⟨bm, bsc⟩ | bs | bitems | kvs
      case obj =>
        rw [recsOf] at hr
        rcases List.mem_append.mp hr with h | h
        · rcases hbr : blockRec kvs sid t with _ | r0
          · rw [hbr] at h
            exact absurd h (List.not_mem_nil r)
          · rw [hbr] at h
            simp only [List.mem_singleton] at h
            subst h
            unfold blockRec at hbr
            rcases hal : alookup kvs sid with _ | e
            · rw [hal] at hbr
              exact absurd hbr (by simp)
            · rw [hal] at hbr
              have hbr2 : (if e.isObj = true then some (t, e) else none) =
                  some r := hbr
              by_cases he : e.isObj = true
              · rw [if_pos he, Option.some_inj] at hbr2
                have hmem := mem_of_alookup hal
                have hq := hw.1
                simp only [List.all_eq_true] at hq
                have h3 := hq (sid, e) hmem
                rw [Bool.or_eq_true] at h3
                rcases h3 with h2 | h2
                · simp only [Bool.not_eq_true'] at h2
                  rw [he] at h2
                  exact absurd h2 (by simp)
                · rw [← hbr2]
                  exact h2
              · rw [if_neg he] at hbr2
                exact absurd hbr2 (by simp)
        · exact ih hwrest r h
      all_goals exact ih hwrest r hr

lemma alookup_map_entry (l : List (String × List (String × Json)))
    (sid : String)
    (f : String → List (String × Json) → SynchronizeEntry) :
    alookup (l.map (fun p => (p.1, f p.1 p.2))) sid =
      (alookup l sid).map (f sid) := by
  induction l with
  | nil => rfl
  | cons p rest ih =>
      rcases p with ⟨k, v⟩
      by_cases hk : k = sid
      · subst hk
        simp [alookup]
      · simp only [List.map_cons, alookup, if_neg hk]
        exact ih

lemma syncWF_ts {data : List (String × Json)} (h : syncWF data = true) :
    (data.map Prod.fst).Nodup := by
  rw [syncWF, Bool.and_eq_true] at h
  exact of_decide_eq_true h.1

lemma syncWF_blocks {data : List (String × Json)} (h : syncWF data = true) :
    blocksNodup data := by
  rw [syncWF, Bool.and_eq_true] at h
  intro p hp kvs hkvs
  have := (List.all_eq_true.mp h.2) p hp
  rw [hkvs] at this
  exact of_decide_eq_true this

/-- C3.  SynchronizeResponse.from_dict inverts the timestamp-first wire
shape into station-first grouping: over well-formed wire mappings, each
station appears in the result exactly when some timestamp block contains
a dict record for it (so absent stations stay absent), it appears at most
once (distinct keys), its value list has one SynchronizeValue per
contributing block in the encountered order, and its key field is the key
value of the first grouped record, defaulting to the station identifier
when that record lacks one. -/
theorem C3_synchronize_inversion :
    ∀ (data : List (String × Json)), syncWF data = true → keyWF data = true →
    (((SynchronizeResponse.from_dict data).stations.map Prod.fst).Nodup)
    ∧ (∀ sid,
        (alookup (SynchronizeResponse.from_dict data).stations sid).isSome ↔
          recsOf sid data ≠ [])
    ∧ (∀ sid e,
        alookup (SynchronizeResponse.from_dict data).stations sid = some e →
        e.station_id = sid
        ∧ e.values =
            ((recsOf sid data).map Prod.snd).map SynchronizeValue.from_dict
        ∧ e.key = (match (recsOf sid data).head? with
            | some r => (r.2.objLookup "key").getD (.str sid)
            | none => .str sid)) := by
  intro data hwf hkw
  have hIA0 : ∀ (sid' : String) (l : List (String × Json)),
      alookup ([] : List (String × List (String × Json))) sid' = some l →
      l ≠ [] ∧ l.map Prod.fst ⊆ ([] : List String) := by
    intro sid' l hl
    exact absurd hl (by simp [alookup])
  have hsd : ∀ sid, alookup (buildStationData [] data) sid =
      match (alookup ([] : List (String × List (String × Json))) sid),
        recsOf sid data with
      | none, [] => none
      | none, rs => some rs
      | some l, rs => some (l ++ rs) := by
    intro sid
    exact buildStationData_lookup data [] [] sid hIA0 (syncWF_ts hwf)
      (by simp) (syncWF_blocks hwf)
  have hmap : ∀ sid,
      alookup (SynchronizeResponse.from_dict data).stations sid =
        (alookup (buildStationData [] data) sid).map
          (fun recs => SynchronizeEntry.from_station_data sid recs) := by
    intro sid
    exact alookup_map_entry (buildStationData [] data) sid
      SynchronizeEntry.from_station_data
  refine ⟨?_, fun sid => ?_, fun sid e he => ?_⟩
  · show ((buildStationData [] data).map
      (fun p => (p.1, SynchronizeEntry.from_station_data p.1 p.2)) |>.map
        Prod.fst).Nodup
    rw [List.map_map]
    have : (Prod.fst ∘ fun p : String × List (String × Json) =>
        (p.1, SynchronizeEntry.from_station_data p.1 p.2)) = Prod.fst := by
      funext p
      rfl
    rw [this]
    exact keys_nodup_build data [] (by simp)
  · rw [hmap sid, hsd sid]
    rcases hrec : recsOf sid data with _ | ⟨r, rs⟩
    · simp [alookup]
    · simp [alookup]
  · rw [hmap sid, hsd sid] at he
    rcases hrec : recsOf sid data with _ | ⟨r, rs⟩
    · rw [hrec] at he
      exact absurd he (by simp [alookup])
    · rw [hrec] at he
      simp only [alookup, Option.map_some'] at he
      have he2 : SynchronizeEntry.from_station_data sid (r :: rs) = e := by
        simpa using he
      subst he2
      have hobj : ∀ x ∈ (r :: rs), x.2.isObj = true := by
        intro x hx
        exact recsOf_mem_obj sid data x (hrec ▸ hx)
      have hkeys : ∀ x ∈ (r :: rs), keyFieldOK x.2 = true := by
        intro x hx
        exact recsOf_mem_keyOK sid data hkw x (hrec ▸ hx)
      exact from_station_data_char sid (r :: rs) hobj hkeys

/-- Witness for C3: a concrete two-timestamp wire document where station
S6-H contributes in both blocks (with a key field in the first record)
and S6P-3 only in the first; the hypotheses hold by computation and the
grouped entry for S6-H satisfies the proved characterization, while an
absent station stays absent. -/
theorem C3_witness :
    syncWF C3wire = true ∧ keyWF C3wire = true ∧
    C3entryH.station_id = "S6-H" ∧
    C3entryH.values =
      ((recsOf "S6-H" C3wire).map Prod.snd).map SynchronizeValue.from_dict ∧
    C3entryH.key = (match (recsOf "S6-H" C3wire).head? with
        | some r => (r.2.objLookup "key").getD (.str "S6-H")
        | none => .str "S6-H") ∧
    (((SynchronizeResponse.from_dict C3wire).stations.map Prod.fst).Nodup) ∧
    ((alookup (SynchronizeResponse.from_dict C3wire).stations
       "ABSENT").isSome ↔ recsOf "ABSENT" C3wire ≠ []) := by
  have h := C3_synchronize_inversion C3wire (by decide) (by decide)
  have h3 := h.2.2 "S6-H" C3entryH rfl
  exact ⟨by decide, by decide, h3.1, h3.2.1, h3.2.2, h.1, h.2.1 "ABSENT"⟩
